import Mathlib

/-!
Verification development for the `io_export_usdz` Blender add-on
(`export_usdz.py`): a shallow embedding of the exporter's data model and
transformation logic, together with theorems checking the natural-language
specification against it.

Modelling conventions:
* Python floats are modelled as rationals (`ℚ`); the decimal rounding and
  formatting performed by `round(f, 6)` and `'%.6g' % v` are modelled as
  exact operations on `ℚ` (round-half-to-even, as CPython does).
* Host (Blender/bpy) objects are modelled as explicit records; reading an
  animated attribute after `scene.frame_set(f)` is modelled by storing the
  attribute as a function `ℤ → _` of the frame and reading it at the
  scene's current frame.
* Stateful host interaction (the current frame, files written, images
  saved, the AO bake, subprocess invocation) is modelled by threading a
  `Host` state that accumulates an event trace.
* Fallible host accesses that the source performs without guards are
  modelled with explicit defaults; each such spot is marked by a comment.
  No theorem below depends on one of those default branches.
-/

namespace UsdzExport

/-- Vectors/tuples of floats (Python tuples of varying arity). -/
abbrev Vec := List ℚ

/-- A 4×4 matrix, stored as its list of rows (as `mathutils.Matrix` slices). -/
abbrev Mat := List Vec

/-! ### Module-level constants (source lines 10-13) -/

/-- Source: `tab = '    '`. -/
def tab : String := "    "

/-- Source: `pi = 3.1415926`. -/
def piConst : ℚ := 31415926 / 10000000

/-- Source: `epslon = 0.000001`. -/
def epslon : ℚ := 1 / 1000000

/-- Source: `defaultMaterialName = 'DefaultMaterial'`. -/
def defaultMaterialName : String := "DefaultMaterial"

/-! ### Numeric formatting primitives

`printTuple` (source line 22-23) renders each component with
`'%.6g' % round(f, 6)`: first CPython's `round` to 6 decimal places
(round-half-to-even), then C `%g` formatting with 6 significant digits.
Both steps are modelled exactly over `ℚ`. -/

/-- Floor of a rational, defined so that it evaluates by computation
(`Int.floor` on `ℚ` does not reduce in the kernel). -/
def qfloor (q : ℚ) : ℤ := q.num / (q.den : ℤ)

theorem qfloor_eq_floor (q : ℚ) : qfloor q = ⌊q⌋ := Rat.floor_def.symm

/-- Round half to even to an integer (CPython's `round` tie-breaking). -/
def rhe (s : ℚ) : ℤ :=
  let f := qfloor s
  let r := s - (f : ℚ)
  if r < 1/2 then f
  else if 1/2 < r then f + 1
  else if f % 2 = 0 then f else f + 1

/-- `10 ^ z` as a rational, for an integer exponent, by `Nat` powers
(so that it evaluates by computation, unlike `zpow`). -/
def qpow10 (z : ℤ) : ℚ :=
  if 0 ≤ z then ((10 ^ z.toNat : ℕ) : ℚ) else 1 / ((10 ^ (-z).toNat : ℕ) : ℚ)

/-- CPython `round(q, n)`: round to `n` decimal places, half to even. -/
def roundPy (q : ℚ) (n : ℕ) : ℚ := (rhe (q * qpow10 n) : ℚ) * qpow10 (-(n : ℤ))

/-- The decimal exponent of `a`: the least `n` with `a < 10 ^ n`
(meaningful for `a > 0`). -/
def decExp (a : ℚ) : ℤ :=
  let p := a.num.natAbs
  let q := a.den
  let d : ℤ := (Nat.log 10 p : ℤ) - (Nat.log 10 q : ℤ)
  if a < qpow10 d then d else d + 1

/-- The numeric value denoted by `'%.6g' % q`: `q` rounded to 6
significant decimal digits, half to even. -/
def sig6 (q : ℚ) : ℚ :=
  if q = 0 then 0
  else
    let a := |q|
    let n := decExp a
    let m := rhe (a * qpow10 (6 - n))
    (if q < 0 then -1 else 1) * (m : ℚ) * qpow10 (n - 6)

/-- The value recovered by parsing the output of `printTuple` for one
component `f`: `'%.6g' % round(f, 6)` read back as an exact decimal. -/
def roundtrip6 (f : ℚ) : ℚ := sig6 (roundPy f 6)

/-! ### String rendering of `'%.6g'` -/

/-- Strip trailing `'0'` characters (fraction-digit cleanup of `%g`). -/
def stripZeros (s : List Char) : List Char :=
  (s.reverse.dropWhile (fun c => c = '0')).reverse

/-- C-style exponent suffix: sign then at least two digits (`e+06`). -/
def expSuffix (x : ℤ) : String :=
  let sgn := if x < 0 then "-" else "+"
  let a := x.natAbs
  sgn ++ (if a < 10 then "0" ++ Nat.repr a else Nat.repr a)

/-- The text produced by `'%.6g' % q`, modelled exactly for rational `q`:
6 significant digits, fixed notation for decimal exponents in `[-4, 6)`,
scientific notation otherwise, trailing fraction zeros stripped. -/
def fmtG6 (q : ℚ) : String :=
  if q = 0 then "0"
  else
    let sgn := if q < 0 then "-" else ""
    let a := |q|
    let n0 := decExp a
    let m0 := rhe (a * qpow10 (6 - n0))
    -- rounding the mantissa can carry over to 10^6: renormalize
    let m : ℤ := if m0 = 10 ^ 6 then 10 ^ 5 else m0
    let n : ℤ := if m0 = 10 ^ 6 then n0 + 1 else n0
    let x := n - 1
    let ds := (Nat.repr m.toNat).data   -- exactly 6 digit characters
    if -4 ≤ x ∧ x < 6 then
      if 0 ≤ x then
        let ip := ds.take (x.toNat + 1)
        let fp := stripZeros (ds.drop (x.toNat + 1))
        sgn ++ String.mk ip ++ (if fp = [] then "" else "." ++ String.mk fp)
      else
        let fp := stripZeros ds
        sgn ++ "0." ++ String.mk (List.replicate (-x - 1).toNat '0') ++ String.mk fp
    else
      let hd := ds.take 1
      let tl := stripZeros (ds.drop 1)
      sgn ++ String.mk hd ++ (if tl = [] then "" else "." ++ String.mk tl)
        ++ "e" ++ expSuffix x

/-! ### Helper methods (source lines 22-29) -/

/-- Source `printTuple`: comma-separated `'%.6g' % round(f, 6)`. -/
def printTuple (t : Vec) : String :=
  String.intercalate ", " (t.map (fun f => fmtG6 (roundPy f 6)))

/-- Source `printIndices`: comma-separated `format(i, 'd')`. -/
def printIndices (indices : List ℕ) : String :=
  String.intercalate ", " (indices.map Nat.repr)

/-- Source `printVectors`: each vector parenthesized via `printTuple`. -/
def printVectors (vectors : List Vec) : String :=
  String.intercalate ", " (vectors.map (fun v => "(" ++ printTuple v ++ ")"))

/-- Name sanitization used throughout the source: `name.replace('.', '_')`. -/
def sanitizeName (s : String) : String :=
  String.mk (s.data.map (fun c => if c = '.' then '_' else c))

/-! ### Host model: shading data

A shader node socket carries a `default_value` (a float or a color
tuple, depending on the socket) and a list of links; `is_linked` is the
derived fact that the link list is nonempty.  Only the link's
`from_node` is ever read, so a link is modelled as the node itself. -/

/-- A socket's `default_value`: scalar or tuple, as in bpy. -/
inductive SVal : Type where
  | f (x : ℚ)
  | c (v : Vec)
deriving Repr

/-- Read a socket default as a float (`.default_value` on a scalar
socket).  The source never reads a tuple socket as a float. -/
def SVal.asF : SVal → ℚ
  | .f x => x
  | .c _ => 0

/-- Read a socket default as a tuple (`.default_value[:]`). -/
def SVal.asC : SVal → Vec
  | .f _ => []
  | .c v => v

/-- A node of a material node tree: its `type` tag, its named input
sockets (each with a default value and linked source nodes), and for
texture nodes the `image` (identified by a file-path string). -/
inductive MNode : Type where
  | mk (ty : String) (inputs : List (String × SVal × List MNode))
       (image : Option String)

def MNode.ty : MNode → String
  | .mk t _ _ => t

def MNode.inputs : MNode → List (String × SVal × List MNode)
  | .mk _ i _ => i

def MNode.image : MNode → Option String
  | .mk _ _ im => im

/-- `node.inputs[name]`: look up an input socket.  bpy raises `KeyError`
for a missing name; the source only looks up sockets that exist on the
shader kinds it dispatches on, and the spec directs missing inputs to be
treated as absent channels, so a missing socket is modelled as an
unlinked socket with a zero default. -/
def MNode.input (n : MNode) (name : String) : SVal × List MNode :=
  (n.inputs.lookup name).getD (SVal.f 0, [])

/-- A legacy (Blender-internal) texture slot, reduced to the fields the
source reads: the role flags, `texture.type` and `texture.image`. -/
structure TexSlot : Type where
  use_map_color_diffuse : Bool
  use_map_normal : Bool
  texture_type : String
  texture_image : Option String

/-- A host material (`bpy.types.Material`), reduced to what the source
reads: name, `use_nodes`, the node tree's node list, legacy texture
slots (slots may be `None`), and the legacy color/emit/specular data. -/
structure BMat : Type where
  name : String
  use_nodes : Bool
  nodes : List MNode
  texture_slots : List (Option TexSlot)
  diffuse_color : Vec
  emit : ℚ
  specular_color : Vec

/-! ### Host model: mesh data -/

/-- A mesh polygon: its vertex indices, smooth flag, face normal and
material index. -/
structure Polygon : Type where
  vertices : List ℕ
  use_smooth : Bool
  normal : Vec
  material_index : ℕ

/-- A mesh vertex: its coordinates and per-vertex normal. -/
structure Vertex : Type where
  co : Vec
  normal : Vec

/-- Mesh data (`bpy.types.Mesh`), reduced to what the source reads.  A
UV layer is its per-corner UV data (`layer.data[i].uv`); the active
layer is modelled as the first one.  `uv_textures` counts the
2.79-style UV texture layers (only emptiness is read, by `bakeAO`). -/
structure MeshData : Type where
  name : String
  vertices : List Vertex
  polygons : List Polygon
  uv_layers : List (List Vec)
  uv_textures : ℕ
  materials : List (Option BMat)

/-- `mesh.uv_layers.active.data`.  When there is no UV layer bpy yields
`None` and the source would fail on `map.data`; the source guarantees a
layer via `smart_project` before reading, so the missing-layer case is
modelled as an empty corner list. -/
def MeshData.activeUVData (m : MeshData) : List Vec :=
  m.uv_layers.headD []

/-- A vertex group, reduced to its `index` and its `weight` lookup;
`weight i = none` models the `RuntimeError` raised for a vertex not in
the group. -/
structure VGroup : Type where
  index : ℕ
  weight : ℕ → Option ℚ

/-! ### Host model: armatures and objects -/

/-- A data-level bone (`arm.data.bones[i]`): name, parent link,
rest matrix (`matrix_local`) and head position. -/
inductive DataBone : Type where
  | mk (name : String) (parent : Option DataBone)
       (matrix_local : Mat) (head_local : Vec)

def DataBone.name : DataBone → String
  | .mk n _ _ _ => n

def DataBone.parent : DataBone → Option DataBone
  | .mk _ p _ _ => p

def DataBone.matrix_local : DataBone → Mat
  | .mk _ _ m _ => m

def DataBone.head_local : DataBone → Vec
  | .mk _ _ _ h => h

/-- A pose bone (`arm.pose.bones[i]`): parent link, animated channels
as functions of the scene frame, and the bone length (read from the
parent in `getArmatureTranslations`). -/
inductive PoseBone : Type where
  | mk (parent : Option PoseBone) (rotation_quaternion : ℤ → Vec)
       (scaleCh : ℤ → Vec) (location : ℤ → Vec) (length : ℚ)

def PoseBone.parent : PoseBone → Option PoseBone
  | .mk p _ _ _ _ => p

def PoseBone.rotation_quaternion : PoseBone → ℤ → Vec
  | .mk _ r _ _ _ => r

def PoseBone.scaleCh : PoseBone → ℤ → Vec
  | .mk _ _ s _ _ => s

def PoseBone.location : PoseBone → ℤ → Vec
  | .mk _ _ _ l _ => l

def PoseBone.length : PoseBone → ℚ
  | .mk _ _ _ _ l => l

/-- Armature payload of an armature object: `arm.data.bones`,
`arm.pose.bones` and `arm.animation_data.action.name` (`none` models an
absent `animation_data`, on which bpy would raise). -/
structure ArmData : Type where
  bones : List DataBone
  poseBones : List PoseBone
  action : Option String

/-- A scene object (`bpy.types.Object`), reduced to what the source
reads.  `data` holds the mesh payload (meaningful for `'MESH'` objects),
`armature` the armature payload (for `'ARMATURE'` objects).  Transform
attributes are functions of the scene's current frame, reflecting that
bpy re-evaluates them after `frame_set`.  `material_slots` is the number
of the object's material slots (only its size is read). -/
inductive BObj : Type where
  | mk (name : String) (ty : String) (data : MeshData)
       (armature : Option ArmData) (parent : Option BObj)
       (matrix_world : ℤ → Mat) (matrix_local : ℤ → Mat)
       (material_slots : ℕ) (vertex_groups : List VGroup)
       (bound_box : List Vec)

def BObj.name : BObj → String
  | .mk n _ _ _ _ _ _ _ _ _ => n

def BObj.ty : BObj → String
  | .mk _ t _ _ _ _ _ _ _ _ => t

def BObj.data : BObj → MeshData
  | .mk _ _ d _ _ _ _ _ _ _ => d

def BObj.armature : BObj → Option ArmData
  | .mk _ _ _ a _ _ _ _ _ _ => a

def BObj.parent : BObj → Option BObj
  | .mk _ _ _ _ p _ _ _ _ _ => p

def BObj.matrix_world : BObj → ℤ → Mat
  | .mk _ _ _ _ _ w _ _ _ _ => w

def BObj.matrix_local : BObj → ℤ → Mat
  | .mk _ _ _ _ _ _ l _ _ _ => l

def BObj.material_slots : BObj → ℕ
  | .mk _ _ _ _ _ _ _ s _ _ => s

def BObj.vertex_groups : BObj → List VGroup
  | .mk _ _ _ _ _ _ _ _ g _ => g

def BObj.bound_box : BObj → List Vec
  | .mk _ _ _ _ _ _ _ _ _ b => b

/-! ### Host state

Host interaction is modelled as an event trace plus the scene's mutable
current frame. -/

/-- An observable host effect. -/
inductive Event : Type where
  | imageSaved (filePath : String)
  | bakeImage (objName : String) (file : String)
  | fileWritten (path : String) (content : String)
  | processRun (args : List String)
  | tempDirCreated (path : String)
  | tempDirRemoved (path : String)

/-- Host state: the scene's mutable current frame, the scene's
configured frame range and rate (read by `exportUSD`), and the effect
trace. -/
structure Host : Type where
  frame_current : ℤ
  frame_start : ℤ
  frame_end : ℤ
  fps : ℤ
  events : List Event

/-- `bpy.context.scene.frame_set(f)`. -/
def Host.frameSet (h : Host) (f : ℤ) : Host := { h with frame_current := f }

/-- Append an observable effect to the trace. -/
def Host.log (h : Host) (e : Event) : Host := { h with events := h.events ++ [e] }

/-! ### Export options

The source's `options` dict, with the keys the pipeline stores in it.
`startTimeCode`, `endTimeCode`, `timeCodesPerSecond` and `tempPath` are
populated by `exportUSD` before use. -/

structure Options : Type where
  basePath : String
  fileName : String
  fileType : String
  animated : Bool
  exportMaterials : Bool
  keepUSDA : Bool
  bakeAO : Bool
  samples : ℕ
  scale : ℚ
  tempPath : String
  startTimeCode : ℤ
  endTimeCode : ℤ
  timeCodesPerSecond : ℤ

/-! ### Object helper methods (source lines 37-116) -/

/-- Source `getObjectMaterial` (lines 75-78): the first material slot of
a mesh object, `None` otherwise (the first slot itself may be `None`). -/
def getObjectMaterial (obj : BObj) : Option BMat :=
  if obj.ty = "MESH" ∧ obj.data.materials.length > 0 then
    obj.data.materials.headD none
  else none

/-- Source `getObjectMaterialName` (lines 81-85). -/
def getObjectMaterialName (obj : BObj) : String :=
  match getObjectMaterial obj with
  | some mat => sanitizeName mat.name
  | none => defaultMaterialName

/-- Source `saveImage` (lines 88-106): saves an image as 8-bit RGBA PNG
under `filePath`, saving and restoring the render settings around the
write.  The settings round-trip has no net effect; the observable effect
is the written file. -/
def saveImage (host : Host) (filePath : String) : Host :=
  host.log (.imageSaved filePath)

/-! ### Export mesh methods (source lines 123-257) -/

/-- Python `min` on tuples: lexicographic strict comparison. -/
def vecLt : Vec → Vec → Bool
  | [], [] => false
  | [], _ :: _ => true
  | _ :: _, [] => false
  | a :: as, b :: bs => if a < b then true else if b < a then false else vecLt as bs

/-- Source `getObjectExtents` (lines 123-129): fold lexicographic
`min`/`max` over the bound-box corners.  (`bound_box[0]` on an empty
bound box would raise in bpy; bpy bound boxes always have 8 corners.) -/
def getObjectExtents (obj : BObj) : List Vec :=
  let first := obj.bound_box.headD []
  let low := obj.bound_box.foldl (fun low v => if vecLt v low then v else low) first
  let high := obj.bound_box.foldl (fun high v => if vecLt high v then v else high) first
  [low, high]

/-- Source `getFaceVertexCounts` (lines 132-133). -/
def getFaceVertexCounts (mesh : MeshData) : List ℕ :=
  mesh.polygons.map (fun p => p.vertices.length)

/-- Source `getFaceVertexIndices` (lines 136-140). -/
def getFaceVertexIndices (mesh : MeshData) : List ℕ :=
  mesh.polygons.flatMap (fun p => p.vertices)

/-- Source `getVertexPoints` (lines 143-144). -/
def getVertexPoints (mesh : MeshData) : List Vec :=
  mesh.vertices.map (fun v => v.co)

/-- Source `getVertexWeights` (lines 146-160): for each vertex, the
`(group index, weight)` pairs of the groups containing it with weight
above `epslon`; `None` when the object has no vertex groups.  The
`try/except RuntimeError` around `group.weight(i)` is the `none` case of
`VGroup.weight`. -/
def getVertexWeights (obj : BObj) : Option (List (List (ℕ × ℚ))) :=
  if obj.vertex_groups.length > 0 then
    some ((List.range obj.data.vertices.length).map (fun i =>
      obj.vertex_groups.filterMap (fun group =>
        match group.weight i with
        | some w => if w > epslon then some (group.index, w) else none
        | none => none)))
  else none

/-- One step of the source's value-deduplication pattern: emit `mult`
copies of the index of `v` in the seen-value list, appending `v` first
when it is new.  (`normals.index(normal)` is `List.indexOf`.) -/
def dedupPush (st : List ℕ × List Vec) (v : Vec) (mult : ℕ) : List ℕ × List Vec :=
  if v ∈ st.2 then (st.1 ++ List.replicate mult (st.2.indexOf v), st.2)
  else (st.1 ++ List.replicate mult st.2.length, st.2 ++ [v])

/-- `mesh.vertices[i].normal`; out-of-range would raise in bpy and is
modelled by a default. -/
def MeshData.vertexNormal (m : MeshData) (i : ℕ) : Vec :=
  (m.vertices.getD i ⟨[], []⟩).normal

/-- Source `getIndexedNormals` (lines 162-181): smooth polygons emit one
index per corner against the per-vertex normals; flat polygons emit
their face normal once, replicated over all corners; values are
deduplicated by exact equality in first-seen order. -/
def getIndexedNormals (mesh : MeshData) : List ℕ × List Vec :=
  mesh.polygons.foldl
    (fun st poly =>
      if poly.use_smooth then
        poly.vertices.foldl (fun st i => dedupPush st (mesh.vertexNormal i) 1) st
      else
        dedupPush st poly.normal poly.vertices.length)
    ([], [])

/-- Source `getIndexedUVs` (lines 184-195): global exact-match
deduplication over the active UV layer's corner data. -/
def getIndexedUVs (mesh : MeshData) : List ℕ × List Vec :=
  mesh.activeUVData.foldl (fun st uv => dedupPush st uv 1) ([], [])

/-- A mesh that carries exactly the deduplicated data of `m`: its
per-vertex normals are `m`'s deduplicated normals, visited by a single
smooth polygon, and its active UV layer is `m`'s deduplicated UV list.
Running the extraction on it re-runs the deduplication on
already-deduplicated data (the idempotence scenario of the spec). -/
def dedupedMesh (m : MeshData) : MeshData :=
  { name := m.name
    vertices := (getIndexedNormals m).2.map (fun n => { co := [], normal := n })
    polygons := [{ vertices := List.range (getIndexedNormals m).2.length
                   use_smooth := true
                   normal := []
                   material_index := 0 }]
    uv_layers := [(getIndexedUVs m).2]
    uv_textures := m.uv_textures
    materials := m.materials }

/-- Source `getSkeletonPath` (lines 197-201). -/
def getSkeletonPath (obj : BObj) : Option String :=
  match obj.parent with
  | some arm =>
    if arm.ty = "ARMATURE" then
      some ("/" ++ sanitizeName obj.name ++ "/" ++ sanitizeName arm.name)
    else none
  | none => none

/-- Source `getAnimationPath` (lines 203-207): like `getSkeletonPath`
but through `arm.animation_data.action.name`.  bpy raises when
`animation_data` is absent; that case is modelled by an empty name. -/
def getAnimationPath (obj : BObj) : Option String :=
  match obj.parent with
  | some arm =>
    if arm.ty = "ARMATURE" then
      some ("/" ++ sanitizeName obj.name ++ "/"
        ++ sanitizeName (((arm.armature.map ArmData.action).join).getD ""))
    else none
  | none => none

/-- Replace an object's mesh payload (used for the duplicated /
separated copies handled inside `exportMeshes`). -/
def BObj.withData : BObj → MeshData → BObj
  | .mk n t _ a p w l s g b, d => .mk n t d a p w l s g b

/-- Modelled from the spec: `bpy.ops.uv.smart_project()` (host operator
invoked by `exportMeshes` when the mesh has no UV layer, source line
214).  The spec leaves the parameterization to the implementer with the
contract that every face gets a UV 2-tuple per corner; the model
assigns the origin to every corner. -/
def smart_project (m : MeshData) : MeshData :=
  { m with uv_layers := [List.replicate (m.polygons.map (fun p => p.vertices.length)).sum ([0, 0] : Vec)] }

/-- The corner-UV block of each polygon, in polygon order: polygon `j`
owns the next `len(poly.vertices)` entries of the active layer's data. -/
def cornerSlices (m : MeshData) : List (Polygon × List Vec) :=
  let uvs := m.activeUVData
  (m.polygons.foldl
    (fun (acc : ℕ × List (Polygon × List Vec)) p =>
      (acc.1 + p.vertices.length, acc.2 ++ [(p, (uvs.drop acc.1).take p.vertices.length)]))
    (0, [])).2

/-- Modelled from the spec: `bpy.ops.mesh.separate(type='MATERIAL')`
(host operator invoked by `exportMeshes` on a multi-material mesh,
source line 230).  Per the spec it splits the mesh into one part per
material: part `i` holds the polygons with `material_index = i` (with
their corner UVs) and carries material slot `i`, so that the part's
first material is the material it was split for. -/
def separateByMaterial (m : MeshData) : List MeshData :=
  (List.range m.materials.length).map (fun i =>
    { m with
      polygons := m.polygons.filter (fun p => p.material_index = i)
      materials := [m.materials.getD i none]
      uv_layers := [((cornerSlices m).filter (fun s => s.1.material_index = i)).flatMap (fun s => s.2)] })

/-- The mesh record assembled by `exportMeshes` (source lines 238-254). -/
structure MeshRecord : Type where
  name : String
  material : String
  extent : List Vec
  faceVertexCounts : List ℕ
  faceVertexIndices : List ℕ
  points : List Vec
  normalIndices : List ℕ
  normals : List Vec
  uvIndices : List ℕ
  uvs : List Vec
  weights : Option (List (List (ℕ × ℚ)))
  skeleton : Option String
  animationSource : Option String

/-- Source `exportMeshes` (lines 209-257): duplicate the object (value
copy here), synthesize UVs when absent, split by material when the
object has more than one material slot, and build one record per
resulting part.  Deleting the temporary copies (source line 255) has no
observable effect in this model. -/
def exportMeshes (obj : BObj) (_options : Options) : List MeshRecord :=
  let objCopy := obj
  let objCopy :=
    if objCopy.data.uv_layers.length = 0 then objCopy.withData (smart_project objCopy.data)
    else objCopy
  let name := sanitizeName obj.data.name
  let multiMat := obj.material_slots > 1
  let skeleton := getSkeletonPath obj
  let animationSource := getAnimationPath obj
  let objs :=
    if multiMat then (separateByMaterial objCopy.data).map (fun md => objCopy.withData md)
    else [objCopy]
  objs.map (fun o =>
    let indexedNormals := getIndexedNormals o.data
    let indexedUVs := getIndexedUVs o.data
    let material := getObjectMaterialName o
    { name := if multiMat then name ++ "_" ++ material else name
      material := material
      extent := getObjectExtents o
      faceVertexCounts := getFaceVertexCounts o.data
      faceVertexIndices := getFaceVertexIndices o.data
      points := getVertexPoints o.data
      normalIndices := indexedNormals.1
      normals := indexedNormals.2
      uvIndices := indexedUVs.1
      uvs := indexedUVs.2
      weights := getVertexWeights o
      skeleton := skeleton
      animationSource := animationSource })

/-! ### Matrices (mathutils) -/

/-- Dot product of two rows. -/
def dotQ (a b : Vec) : ℚ := (List.zipWith (fun x y => x * y) a b).sum

/-- `mathutils` matrix multiplication (`A * B`). -/
def matMul (a b : Mat) : Mat :=
  a.map (fun row => (List.transpose b).map (fun col => dotQ row col))

/-- Componentwise `Vector * scalar`. -/
def vecScale (v : Vec) (s : ℚ) : Vec := v.map (fun x => x * s)

/-- Componentwise `Vector + Vector`. -/
def vecAdd (a b : Vec) : Vec := List.zipWith (fun x y => x + y) a b

/-- `mathutils.Matrix.Scale(s, 4)` (uniform scale, no axis). -/
def scaleMat (s : ℚ) : Mat :=
  [[s, 0, 0, 0], [0, s, 0, 0], [0, 0, s, 0], [0, 0, 0, 1]]

/-- A rotation about X with the given cosine/sine. -/
def rotXMat (c s : ℚ) : Mat :=
  [[1, 0, 0, 0], [0, c, -s, 0], [0, s, c, 0], [0, 0, 0, 1]]

/-- `mathutils.Matrix.Rotation(-pi/2.0, 4, 'X')` (source line 265).  The
source's `pi` is the float constant 3.1415926, so the real entries are
within 5e-8 of the exact quarter turn; the model uses the exact turn.
No claim below depends on these entries. -/
def rotXNeg90 : Mat := rotXMat 0 (-1)

/-- `mathutils.Matrix.Rotation(pi/2.0, 4, 'X')` (source line 280),
modelled as the exact quarter turn (see `rotXNeg90`). -/
def rotXPos90 : Mat := rotXMat 0 1

/-- `mathutils.Matrix.Translation(v)`. -/
def translationMat (v : Vec) : Mat :=
  [[1, 0, 0, v.getD 0 0], [0, 1, 0, v.getD 1 0], [0, 0, 1, v.getD 2 0], [0, 0, 0, 1]]

/-- Source `exportMatrix` (lines 259-261): transpose, then slice into
rows, i.e. the column-major listing of the input. -/
def exportMatrix (matrix : Mat) : Mat := List.transpose matrix

/-- Source `exportRootMatrix` (lines 263-266):
`exportMatrix(rotation * scale * matrix)`. -/
def exportRootMatrix (matrix : Mat) (options : Options) : Mat :=
  exportMatrix (matMul (matMul rotXNeg90 (scaleMat options.scale)) matrix)

/-! ### Skeleton and animation extraction (source lines 268-363) -/

/-- `arm.data.bones`; empty for a non-armature (bpy would raise). -/
def BObj.armBones (o : BObj) : List DataBone :=
  (o.armature.map ArmData.bones).getD []

/-- `arm.pose.bones`; empty for a non-armature (bpy would raise). -/
def BObj.armPoseBones (o : BObj) : List PoseBone :=
  (o.armature.map ArmData.poseBones).getD []

/-- `arm.animation_data.action.name`; empty when `animation_data` is
absent (bpy would raise). -/
def BObj.actionName (o : BObj) : String :=
  ((o.armature.map ArmData.action).join).getD ""

/-- Source `getJointToken` (lines 268-272): slash-joined sanitized name
path from the root bone down to this bone. -/
def getJointToken : DataBone → String
  | .mk n none _ _ => sanitizeName n
  | .mk n (some parent) _ _ => getJointToken parent ++ "/" ++ sanitizeName n

/-- Source `exportJointTokens` (lines 274-275). -/
def exportJointTokens (arm : BObj) : List String :=
  arm.armBones.map getJointToken

/-- Source `getBoneMatrix` (lines 277-281). -/
def getBoneMatrix (bone : DataBone) : Mat :=
  matMul (translationMat bone.head_local) rotXPos90

/-- Source `exportBoneMatrix` (lines 283-284). -/
def exportBoneMatrix (bone : DataBone) : Mat :=
  exportMatrix (getBoneMatrix bone)

/-- Source `exportBindTransforms` (lines 286-291): `exportMatrix` of
each bone's `matrix_local`, in bone order. -/
def exportBindTransforms (arm : BObj) : List Mat :=
  arm.armBones.map (fun bone => exportMatrix bone.matrix_local)

/-- Source `exportRestTransforms` (lines 293-298): `exportMatrix` of
each bone's `matrix_local`, in bone order. -/
def exportRestTransforms (arm : BObj) : List Mat :=
  arm.armBones.map (fun bone => exportMatrix bone.matrix_local)

/-- The skeleton record assembled by `exportSkeleton`. -/
structure SkelRecord : Type where
  name : String
  matrix : Mat
  jointTokens : List String
  bindTransforms : List Mat
  restTransforms : List Mat

/-- Source `exportSkeleton` (lines 300-310): a record for the armature
parent, if any. -/
def exportSkeleton (obj : BObj) (host : Host) : Option SkelRecord :=
  match obj.parent with
  | some arm =>
    if arm.ty = "ARMATURE" then
      some { name := sanitizeName arm.name
             matrix := exportMatrix (arm.matrix_world host.frame_current)
             jointTokens := exportJointTokens arm
             bindTransforms := exportBindTransforms arm
             restTransforms := exportRestTransforms arm }
    else none
  | none => none

/-- Source `getArmatureScales` (lines 312-319), at the given frame:
root bones additionally scaled by the global scale option. -/
def getArmatureScales (arm : BObj) (scale : ℚ) (frame : ℤ) : List Vec :=
  arm.armPoseBones.map (fun bone =>
    match bone.parent with
    | some _ => bone.scaleCh frame
    | none => vecScale (bone.scaleCh frame) scale)

/-- Source `getArmatureTranslations` (lines 321-330), at the given
frame: parented bones offset along Y by the parent's length, root bones
scaled by the global scale option. -/
def getArmatureTranslations (arm : BObj) (scale : ℚ) (frame : ℤ) : List Vec :=
  arm.armPoseBones.map (fun bone =>
    let location := bone.location frame
    match bone.parent with
    | some parent => vecAdd location [0, parent.length, 0]
    | none => vecScale location scale)

/-- Python `range(a, b + 1)` over integers. -/
def intRange (a b : ℤ) : List ℤ :=
  (List.range (b + 1 - a).toNat).map (fun k => a + k)

/-- The animation record assembled by `exportSkelAnimation`. -/
structure AnimRecord : Type where
  name : String
  jointTokens : List String
  rotations : List (ℤ × List Vec)
  scales : List (ℤ × List Vec)
  translations : List (ℤ × List Vec)

/-- The body of the source's frame-sampling loops: set the scene frame,
read a sample off the host at the now-current frame, append it keyed by
the frame number.  `skelLoop` is the three-channel loop of
`exportSkelAnimation` (lines 344-348). -/
def skelLoop (g1 g2 g3 : ℤ → List Vec) :
    List ℤ → Host → List (ℤ × List Vec) → List (ℤ × List Vec) → List (ℤ × List Vec) →
      Host × List (ℤ × List Vec) × List (ℤ × List Vec) × List (ℤ × List Vec)
  | [], host, rotations, scales, translations => (host, rotations, scales, translations)
  | frame :: rest, host, rotations, scales, translations =>
    let host := host.frameSet frame
    skelLoop g1 g2 g3 rest host
      (rotations ++ [(frame, g1 host.frame_current)])
      (scales ++ [(frame, g2 host.frame_current)])
      (translations ++ [(frame, g3 host.frame_current)])

/-- Source `exportSkelAnimation` (lines 332-357): set
`options['animated'] = True`, save the current frame, sample the pose
channels at every frame of the configured range, restore the frame, and
assemble the record. -/
def exportSkelAnimation (arm : BObj) (options : Options) (host : Host) :
    AnimRecord × Options × Host :=
  let scale := options.scale
  let options := { options with animated := true }
  let originalFrame := host.frame_current
  let frames := intRange options.startTimeCode options.endTimeCode
  let step := skelLoop
    (fun fr => arm.armPoseBones.map (fun bone => bone.rotation_quaternion fr))
    (fun fr => getArmatureScales arm scale fr)
    (fun fr => getArmatureTranslations arm scale fr)
    frames host [] [] []
  match step with
  | (host, rotations, scales, translations) =>
    let host := host.frameSet originalFrame
    ({ name := sanitizeName arm.actionName
       jointTokens := exportJointTokens arm
       rotations := rotations
       scales := scales
       translations := translations }, options, host)

/-- Source `exportAnimation` (lines 359-363). -/
def exportAnimation (obj : BObj) (options : Options) (host : Host) :
    Option AnimRecord × Options × Host :=
  match obj.parent with
  | some arm =>
    if arm.ty = "ARMATURE" then
      match exportSkelAnimation arm options host with
      | (animation, options, host) => (some animation, options, host)
    else (none, options, host)
  | none => (none, options, host)

/-- The single-channel frame-sampling loop shared by
`exportRootTimeSamples` and `exportLocalTimeSamples` (lines 370-372 and
381-383): set the frame, sample a matrix at the now-current frame. -/
def sampleLoop (g : ℤ → Mat) : List ℤ → Host → List (ℤ × Mat) → Host × List (ℤ × Mat)
  | [], host, samples => (host, samples)
  | frame :: rest, host, samples =>
    let host := host.frameSet frame
    sampleLoop g rest host (samples ++ [(frame, g host.frame_current)])

/-- Source `exportRootTimeSamples` (lines 365-374): save the frame,
sample `exportRootMatrix(obj.matrix_world)` at every frame of the
range, restore the frame. -/
def exportRootTimeSamples (obj : BObj) (options : Options) (host : Host) :
    List (ℤ × Mat) × Host :=
  let originalFrame := host.frame_current
  let frames := intRange options.startTimeCode options.endTimeCode
  let step := sampleLoop (fun fr => exportRootMatrix (obj.matrix_world fr) options)
    frames host []
  (step.2, step.1.frameSet originalFrame)

/-- Source `exportLocalTimeSamples` (lines 376-385): as
`exportRootTimeSamples` but sampling `exportMatrix(obj.matrix_local)`. -/
def exportLocalTimeSamples (obj : BObj) (options : Options) (host : Host) :
    List (ℤ × Mat) × Host :=
  let originalFrame := host.frame_current
  let frames := intRange options.startTimeCode options.endTimeCode
  let step := sampleLoop (fun fr => exportMatrix (obj.matrix_local fr)) frames host []
  (step.2, step.1.frameSet originalFrame)

/-- Source `exportTimeSamples` (lines 387-393). -/
def exportTimeSamples (obj : BObj) (options : Options) (host : Host) :
    List (ℤ × Mat) × Host :=
  if options.animated ∧ obj.ty ≠ "ARMATURE" then
    match obj.parent with
    | none => exportRootTimeSamples obj options host
    | some parent =>
      if parent.ty ≠ "ARMATURE" then exportLocalTimeSamples obj options host
      else ([], host)
  else ([], host)

/-! ### Scene graph builder (source lines 395-444) -/

/-- The per-object record built by `exportObject` / `exportEmpty`;
`children` is populated by the linking pass of `exportObjects`. -/
inductive ObjRecord : Type where
  | mk (name : String) (meshes : List MeshRecord) (matrix : Mat)
       (skeleton : Option SkelRecord) (animation : Option AnimRecord)
       (parentName : Option String) (timeSamples : List (ℤ × Mat))
       (children : List ObjRecord)

def ObjRecord.name : ObjRecord → String
  | .mk n _ _ _ _ _ _ _ => n

def ObjRecord.meshes : ObjRecord → List MeshRecord
  | .mk _ m _ _ _ _ _ _ => m

def ObjRecord.matrix : ObjRecord → Mat
  | .mk _ _ m _ _ _ _ _ => m

def ObjRecord.skeleton : ObjRecord → Option SkelRecord
  | .mk _ _ _ s _ _ _ _ => s

def ObjRecord.animation : ObjRecord → Option AnimRecord
  | .mk _ _ _ _ a _ _ _ => a

def ObjRecord.parentName : ObjRecord → Option String
  | .mk _ _ _ _ _ p _ _ => p

def ObjRecord.timeSamples : ObjRecord → List (ℤ × Mat)
  | .mk _ _ _ _ _ _ t _ => t

def ObjRecord.children : ObjRecord → List ObjRecord
  | .mk _ _ _ _ _ _ _ c => c

def ObjRecord.withChildren : ObjRecord → List ObjRecord → ObjRecord
  | .mk n m x s a p t _, c => .mk n m x s a p t c

/-- Source `exportObject` (lines 395-408), in source statement order;
`exportAnimation` may set `options['animated']`, which the subsequent
`exportTimeSamples` call observes. -/
def exportObject (obj : BObj) (options : Options) (host : Host) :
    ObjRecord × Options × Host :=
  let name := sanitizeName obj.name
  let meshes := exportMeshes obj options
  let matrix := exportRootMatrix (obj.matrix_world host.frame_current) options
  let skeleton := exportSkeleton obj host
  match exportAnimation obj options host with
  | (animation, options, host) =>
    let pm : Option String × Mat :=
      match obj.parent with
      | some parent =>
        if parent.ty ≠ "ARMATURE" then
          (some parent.name, exportMatrix (obj.matrix_local host.frame_current))
        else (none, matrix)
      | none => (none, matrix)
    match exportTimeSamples obj options host with
    | (timeSamples, host) =>
      (.mk name meshes pm.2 skeleton animation pm.1 timeSamples [], options, host)

/-- Source `exportEmpty` (lines 410-423): a transform-only record. -/
def exportEmpty (obj : BObj) (options : Options) (host : Host) :
    ObjRecord × Host :=
  let name := sanitizeName obj.name
  let matrix := exportRootMatrix (obj.matrix_world host.frame_current) options
  let pm : Option String × Mat :=
    match obj.parent with
    | some parent =>
      if parent.ty ≠ "ARMATURE" then
        (some parent.name, exportMatrix (obj.matrix_local host.frame_current))
      else (none, matrix)
    | none => (none, matrix)
  match exportTimeSamples obj options host with
  | (timeSamples, host) =>
    (.mk name [] pm.2 none none pm.1 timeSamples [], host)

/-- Insert into the name-keyed record map as a Python dict assignment:
overwrite in place when the key exists, append otherwise. -/
def upsert (m : List (String × ObjRecord)) (k : String) (v : ObjRecord) :
    List (String × ObjRecord) :=
  if (m.lookup k).isSome then m.map (fun kv => if kv.1 = k then (k, v) else kv)
  else m ++ [(k, v)]

/-- The ancestor walk of `exportObjects` (lines 430-434): climb the
parent chain, stopping at an armature, adding an `exportEmpty` record
for every unseen ancestor. -/
def addAncestors (options : Options) :
    BObj → List (String × ObjRecord) × Host → List (String × ObjRecord) × Host
  | parent@(.mk _ _ _ _ grandparent _ _ _ _ _), (m, host) =>
    if parent.ty ≠ "ARMATURE" then
      let st :=
        if (m.lookup parent.name).isSome then (m, host)
        else
          match exportEmpty parent options host with
          | (record, host) => (m ++ [(parent.name, record)], host)
      match grandparent with
      | some g => addAncestors options g st
      | none => st
    else (m, host)

/-- The linking pass of `exportObjects` (lines 436-439) together with
the aliasing of Python dict values: the children of the entry keyed `k`
are the map's records (in insertion order) whose `parent` is `k`, each
with its own children linked likewise.  The fuel bounds the recursion
depth; `exportObjects` passes the map size, which suffices for the
acyclic parent chains the host provides. -/
def materializeAt (m : List (String × ObjRecord)) :
    ℕ → String × ObjRecord → ObjRecord
  | 0, kv => kv.2
  | fuel + 1, (k, record) =>
    record.withChildren
      (((m.filter (fun kv => kv.2.parentName = some k)).map
        (materializeAt m fuel)))

/-- Source `exportObjects` (lines 425-444): scan the selection building
records for mesh objects and their non-armature ancestors, then link
children to parents by name and return the parentless roots.  (In
Python a record whose `parent` key is missing from the map would raise
`KeyError` in the linking pass; the source only stores parent names it
has added records for, so the model links by name lookup.) -/
def exportObjects (objs : List BObj) (options : Options) (host : Host) :
    List ObjRecord × Options × Host :=
  let scan := objs.foldl
    (fun (st : List (String × ObjRecord) × Options × Host) obj =>
      match st with
      | (m, options, host) =>
        if obj.ty = "MESH" then
          match exportObject obj options host with
          | (record, options, host) =>
            let st := (upsert m obj.name record, host)
            match obj.parent with
            | some parent =>
              match addAncestors options parent st with
              | (m, host) => (m, options, host)
            | none => (st.1, options, st.2)
        else (m, options, host))
    ([], options, host)
  match scan with
  | (m, options, host) =>
    let roots := (m.filter (fun kv => kv.2.parentName = none)).map
      (materializeAt m m.length)
    (roots, options, host)

/-! ### Material extraction (source lines 455-623) -/

/-- The normalized material record (source `getDefaultMaterial`'s keys). -/
structure MaterialRecord : Type where
  name : String
  clearcoat : ℚ
  clearcoatRoughness : ℚ
  color : Vec
  colorMap : Option String
  displacement : ℚ
  emissive : Vec
  emissiveMap : Option String
  ior : ℚ
  metallic : ℚ
  metallicMap : Option String
  normalMap : Option String
  occlusionMap : Option String
  opacity : ℚ
  roughness : ℚ
  roughnessMap : Option String
  specular : Vec
  specularWorkflow : Bool

/-- Source `getDefaultMaterial` (lines 455-475). -/
def getDefaultMaterial : MaterialRecord :=
  { name := defaultMaterialName
    clearcoat := 0
    clearcoatRoughness := 0
    color := [0, 0, 0, 1]
    colorMap := none
    displacement := 0
    emissive := [0, 0, 0, 1]
    emissiveMap := none
    ior := 3 / 2
    metallic := 0
    metallicMap := none
    normalMap := none
    occlusionMap := none
    opacity := 1
    roughness := 0
    roughnessMap := none
    specular := [1, 1, 1]
    specularWorkflow := false }

/-- Source `getOutputMaterialNode` (lines 478-482): the first node of
type `'OUTPUT_MATERIAL'`. -/
def getOutputMaterialNode (mat : BMat) : Option MNode :=
  mat.nodes.find? (fun node => node.ty = "OUTPUT_MATERIAL")

/-- Source `getSurfaceShaderNode` (lines 484-488): the node feeding the
output node's `Surface` input, when that input exists and is linked. -/
def getSurfaceShaderNode (mat : BMat) : Option MNode :=
  match getOutputMaterialNode mat with
  | some node =>
    match node.inputs.lookup "Surface" with
    | some (_, links) => links.head?
    | none => none
  | none => none

/-- Source `exportInputImage` (lines 490-498): when the input socket is
linked to a `'TEX_IMAGE'` node carrying an image, save that image under
`tempPath + fileName` and return the file name; the first matching link
wins (the `is_linked`/`len(links) > 0` guard is subsumed by the
search). -/
def exportInputImage (input : SVal × List MNode) (fileName : String)
    (options : Options) (host : Host) : Option String × Host :=
  match input.2.find? (fun node => node.ty = "TEX_IMAGE" ∧ node.image ≠ none) with
  | some _ => (some fileName, saveImage host (options.tempPath ++ fileName))
  | none => (none, host)

/-- Source `exportPrincipledBSDF` (lines 500-513). -/
def exportPrincipledBSDF (node : MNode) (name : String) (options : Options)
    (host : Host) : MaterialRecord × Host :=
  let mat := getDefaultMaterial
  let (colorMap, host) := exportInputImage (node.input "Base Color") (name ++ "_color.png") options host
  let (metallicMap, host) := exportInputImage (node.input "Metallic") (name ++ "_metallic.png") options host
  let (roughnessMap, host) := exportInputImage (node.input "Roughness") (name ++ "_roughness.png") options host
  let (normalMap, host) := exportInputImage (node.input "Normal") (name ++ "_normal.png") options host
  ({ mat with
      name := name
      clearcoat := (node.input "Clearcoat").1.asF
      clearcoatRoughness := (node.input "Clearcoat Roughness").1.asF
      color := (node.input "Base Color").1.asC
      colorMap := colorMap
      metallic := (node.input "Metallic").1.asF
      metallicMap := metallicMap
      ior := (node.input "IOR").1.asF
      roughness := (node.input "Roughness").1.asF
      roughnessMap := roughnessMap
      normalMap := normalMap }, host)

/-- Source `exportDiffuseBSDF` (lines 515-523). -/
def exportDiffuseBSDF (node : MNode) (name : String) (options : Options)
    (host : Host) : MaterialRecord × Host :=
  let mat := getDefaultMaterial
  let (colorMap, host) := exportInputImage (node.input "Color") (name ++ "_color.png") options host
  let (roughnessMap, host) := exportInputImage (node.input "Roughness") (name ++ "_roughness.png") options host
  let (normalMap, host) := exportInputImage (node.input "Normal") (name ++ "_normal.png") options host
  ({ mat with
      name := name
      color := (node.input "Color").1.asC
      colorMap := colorMap
      roughness := (node.input "Roughness").1.asF
      roughnessMap := roughnessMap
      normalMap := normalMap }, host)

/-- Source `exportCyclesMaterial` (lines 525-534): dispatch on the
surface shader node's type; any other kind keeps the default record.
The record's final name is the material's raw (unsanitized) name. -/
def exportCyclesMaterial (material : BMat) (options : Options) (host : Host) :
    MaterialRecord × Host :=
  let step : MaterialRecord × Host :=
    match getSurfaceShaderNode material with
    | some node =>
      if node.ty = "BSDF_PRINCIPLED" then
        exportPrincipledBSDF node material.name options host
      else if node.ty = "BSDF_DIFFUSE" then
        exportDiffuseBSDF node material.name options host
      else (getDefaultMaterial, host)
    | none => (getDefaultMaterial, host)
  ({ step.1 with name := material.name }, step.2)

/-- Source `extractInternalColorMap` (lines 537-544): first non-`None`
texture slot flagged for diffuse color with an image texture. -/
def extractInternalColorMap (mat : BMat) (options : Options) (host : Host) :
    Option String × Host :=
  match mat.texture_slots.find? (fun s =>
      match s with
      | some slot => slot.use_map_color_diffuse ∧ slot.texture_type = "IMAGE"
          ∧ slot.texture_image ≠ none
      | none => false) with
  | some _ =>
    let fileName := sanitizeName mat.name ++ "_color.png"
    (some fileName, saveImage host (options.tempPath ++ fileName))
  | none => (none, host)

/-- Source `extractInternalNormalMap` (lines 547-554). -/
def extractInternalNormalMap (mat : BMat) (options : Options) (host : Host) :
    Option String × Host :=
  match mat.texture_slots.find? (fun s =>
      match s with
      | some slot => slot.use_map_normal ∧ slot.texture_type = "IMAGE"
          ∧ slot.texture_image ≠ none
      | none => false) with
  | some _ =>
    let fileName := sanitizeName mat.name ++ "_normal.png"
    (some fileName, saveImage host (options.tempPath ++ fileName))
  | none => (none, host)

/-- Source `exportInternalMaterial` (lines 557-565). -/
def exportInternalMaterial (mat : BMat) (options : Options) (host : Host) :
    MaterialRecord × Host :=
  let material := getDefaultMaterial
  let (colorMap, host) := extractInternalColorMap mat options host
  let (normalMap, host) := extractInternalNormalMap mat options host
  ({ material with
      name := sanitizeName mat.name
      color := mat.diffuse_color ++ [1]
      colorMap := colorMap
      emissive := (mat.diffuse_color.map (fun s => mat.emit * s)) ++ [1]
      normalMap := normalMap
      specular := mat.specular_color }, host)

/-- Source `bakeAO` (lines 568-592): when the mesh has a UV texture
layer, create a 1024×1024 bake target, run the host's AO bake, save the
image, detach and free the target, and return the file name; otherwise
do nothing and return `None`.  The temporary image's creation,
attachment and removal cancel out; the observable effects are the bake
pass and the saved PNG. -/
def bakeAO (obj : BObj) (file : String) (options : Options) (host : Host) :
    Option String × Host :=
  if obj.data.uv_textures > 0 then
    let host := host.log (.bakeImage obj.name file)
    let host := host.log (.imageSaved (options.tempPath ++ file))
    (some file, host)
  else (none, host)

/-- Source `exportMaterial` (lines 595-600). -/
def exportMaterial (mat : Option BMat) (options : Options) (host : Host) :
    MaterialRecord × Host :=
  match mat with
  | some m =>
    if m.use_nodes then exportCyclesMaterial m options host
    else exportInternalMaterial m options host
  | none => (getDefaultMaterial, host)

/-- `obj.data.materials[0].name`, used by `exportMaterials` to name the
AO file.  bpy raises `AttributeError` when the first slot is `None`;
that case is modelled by an empty name. -/
def firstSlotName (obj : BObj) : String :=
  match obj.data.materials.headD none with
  | some m => m.name
  | none => ""

/-- The body of `exportMaterials`' inner loop (source lines 614-620)
for one material slot: skip `None` slots and already-seen sanitized
names; otherwise append the extracted record with the mesh's AO map
attached.  The state is (seen sanitized names, records so far, host). -/
def materialSlotStep (options : Options) (aoMap : Option String)
    (st : List String × List MaterialRecord × Host) (mat : Option BMat) :
    List String × List MaterialRecord × Host :=
  match st with
  | (names, mats, host) =>
    match mat with
    | some m =>
      let name := sanitizeName m.name
      if name ∈ names then (names, mats, host)
      else
        match exportMaterial (some m) options host with
        | (record, host) =>
          (names ++ [name], mats ++ [{ record with occlusionMap := aoMap }], host)
    | none => (names, mats, host)

/-- The body of `exportMaterials`' outer loop (source lines 607-620)
for one object: bake AO once for the mesh when requested, then run the
slot loop. -/
def exportMaterialsStep (obj : BObj) (options : Options)
    (st : List String × List MaterialRecord × Host) :
    List String × List MaterialRecord × Host :=
  match st with
  | (materialNames, materials, host) =>
    if obj.ty = "MESH" ∧ obj.data.materials.length > 0 then
      let aoRes : Option String × Host :=
        if options.bakeAO then
          bakeAO obj (sanitizeName (firstSlotName obj) ++ "_ao.png") options host
        else (none, host)
      match aoRes with
      | (aoMap, host) =>
        obj.data.materials.foldl (materialSlotStep options aoMap)
          (materialNames, materials, host)
    else (materialNames, materials, host)

/-- Source `exportMaterials` (lines 603-623): collect one record per
distinct sanitized material name across the mesh objects, first
occurrence winning; when none is found, return the single default
record. -/
def exportMaterials (objs : List BObj) (options : Options) (host : Host) :
    List MaterialRecord × Host :=
  match objs.foldl (fun st obj => exportMaterialsStep obj options st) ([], [], host) with
  | (_, materials, host) =>
    if materials.length = 0 then ([getDefaultMaterial], host)
    else (materials, host)

/-! ### Joint index/weight flattening (source lines 631-663) -/

/-- Source `getJointIndices` (lines 631-638): per vertex, start from
`elements * [0]` and overwrite slot `i` with the `i`-th influence's
group index, iterating `enumerate(v[:elements])`. -/
def getJointIndices (vertexWeights : List (List (ℕ × ℚ))) (elements : ℕ) : List ℕ :=
  vertexWeights.flatMap (fun v =>
    (v.take elements).enum.foldl
      (fun indices ig => indices.set ig.1 ig.2.1)
      (List.replicate elements 0))

/-- Source `getJointWeights` (lines 648-655): as `getJointIndices` but
writing the influence weights. -/
def getJointWeights (vertexWeights : List (List (ℕ × ℚ))) (elements : ℕ) : List ℚ :=
  vertexWeights.flatMap (fun v =>
    (v.take elements).enum.foldl
      (fun weights ig => weights.set ig.1 ig.2.2)
      (List.replicate elements 0))

/-! ### Document composer (source lines 640-913) -/

/-- Python `n * tab`. -/
def tabs (n : ℕ) : String := String.join (List.replicate n tab)

/-- Source `printJointIndices` (lines 640-646). -/
def printJointIndices (vertexWeights : List (List (ℕ × ℚ))) (elements : ℕ) : String :=
  tabs 2 ++ "int[] primvars:skel:jointIndices = ["
    ++ printIndices (getJointIndices vertexWeights elements) ++ "] (\n"
    ++ tabs 3 ++ "elementSize = " ++ Nat.repr elements ++ "\n"
    ++ tabs 3 ++ "interpolation = \"vertex\"\n"
    ++ tabs 2 ++ ")\n"

/-- Source `printJointWeights` (lines 657-663). -/
def printJointWeights (vertexWeights : List (List (ℕ × ℚ))) (elements : ℕ) : String :=
  tabs 2 ++ "float[] primvars:skel:jointWeights = ["
    ++ printTuple (getJointWeights vertexWeights elements) ++ "] (\n"
    ++ tabs 3 ++ "elementSize = " ++ Nat.repr elements ++ "\n"
    ++ tabs 3 ++ "interpolation = \"vertex\"\n"
    ++ tabs 2 ++ ")\n"

/-- Source `printMesh` (lines 665-691). -/
def printMesh (mesh : MeshRecord) (options : Options) (indent : String) : String :=
  indent ++ tab ++ "def Mesh \"" ++ mesh.name ++ "\"\n"
  ++ indent ++ tab ++ "\x7b\n"
  ++ indent ++ tabs 2 ++ "float3[] extent = [" ++ printVectors mesh.extent ++ "]\n"
  ++ indent ++ tabs 2 ++ "int[] faceVertexCounts = [" ++ printIndices mesh.faceVertexCounts ++ "]\n"
  ++ indent ++ tabs 2 ++ "int[] faceVertexIndices = [" ++ printIndices mesh.faceVertexIndices ++ "]\n"
  ++ (if options.exportMaterials then
        indent ++ tabs 2 ++ "rel material:binding = </Materials/" ++ mesh.material ++ ">\n"
      else "")
  ++ indent ++ tabs 2 ++ "point3f[] points = [" ++ printVectors mesh.points ++ "]\n"
  ++ indent ++ tabs 2 ++ "normal3f[] primvars:normals = [" ++ printVectors mesh.normals ++ "] (\n"
  ++ indent ++ tabs 3 ++ "interpolation = \"vertex\"\n"
  ++ indent ++ tabs 2 ++ ")\n"
  ++ indent ++ tabs 2 ++ "int[] primvars:normals:indices = [" ++ printIndices mesh.normalIndices ++ "]\n"
  ++ indent ++ tabs 2 ++ "texCoord2f[] primvars:Texture_uv = [" ++ printVectors mesh.uvs ++ "] (\n"
  ++ indent ++ tabs 3 ++ "interpolation = \"faceVarying\"\n"
  ++ indent ++ tabs 2 ++ ")\n"
  ++ indent ++ tabs 2 ++ "int[] primvars:Texture_uv:indices = [" ++ printIndices mesh.uvIndices ++ "]\n"
  ++ (match mesh.weights with
      | some w => printJointIndices w 4 ++ printJointWeights w 4
      | none => "")
  ++ (match mesh.skeleton, mesh.animationSource with
      | some skeleton, some animationSource =>
        indent ++ tabs 2 ++ "prepend rel skel:animationSource = <" ++ animationSource ++ ">\n"
        ++ indent ++ tabs 2 ++ "prepend rel skel:skeleton = <" ++ skeleton ++ ">\n"
      | _, _ => "")
  ++ indent ++ tabs 2 ++ "uniform token subdivisionScheme = \"none\"\n"
  ++ indent ++ tab ++ "\x7d\n"
  ++ indent ++ tab ++ "\n"

/-- Source `printMeshes` (lines 693-697). -/
def printMeshes (meshes : List MeshRecord) (options : Options) (indent : String) : String :=
  meshes.foldl (fun src mesh => src ++ printMesh mesh options indent) ""

/-- Source `printSkeleton` (lines 699-706). -/
def printSkeleton (skeleton : SkelRecord) (indent : String) : String :=
  indent ++ tab ++ "def Skeleton \"" ++ skeleton.name ++ "\"\n"
  ++ indent ++ tab ++ "\x7b\n"
  ++ indent ++ tabs 2 ++ "uniform token[] joints = ["
    ++ String.intercalate ", " (skeleton.jointTokens.map (fun t => "\"" ++ t ++ "\"")) ++ "]\n"
  ++ indent ++ tabs 2 ++ "uniform matrix4d[] bindTransforms = ["
    ++ String.intercalate ", " (skeleton.bindTransforms.map (fun m => "(" ++ printVectors m ++ ")")) ++ "]\n"
  ++ indent ++ tabs 2 ++ "uniform matrix4d[] restTransforms = ["
    ++ String.intercalate ", " (skeleton.restTransforms.map (fun m => "(" ++ printVectors m ++ ")")) ++ "]\n"
  ++ indent ++ tab ++ "\x7d\n"

/-- Source `printTimeSamples` (lines 708-712). -/
def printTimeSamples (samples : List (ℤ × List Vec)) (indent : String) : String :=
  samples.foldl
    (fun src sample =>
      src ++ indent ++ tabs 3 ++ Int.repr sample.1 ++ ": ["
        ++ printVectors sample.2 ++ "],\n")
    ""

/-- Source `printSkelAnimation` (lines 714-725). -/
def printSkelAnimation (animation : AnimRecord) (indent : String) : String :=
  indent ++ tab ++ "def SkelAnimation \"" ++ animation.name ++ "\"\n"
  ++ indent ++ tab ++ "\x7b\n"
  ++ indent ++ tabs 2 ++ "uniform token[] joints = ["
    ++ String.intercalate ", " (animation.jointTokens.map (fun t => "\"" ++ t ++ "\"")) ++ "]\n"
  ++ indent ++ tabs 2 ++ "quatf[] rotations.timeSamples = \x7b\n" ++ printTimeSamples animation.rotations indent
  ++ indent ++ tabs 2 ++ "\x7d\n"
  ++ indent ++ tabs 2 ++ "half3[] scales.timeSamples = \x7b\n" ++ printTimeSamples animation.scales indent
  ++ indent ++ tabs 2 ++ "\x7d\n"
  ++ indent ++ tabs 2 ++ "float3[] translations.timeSamples = \x7b\n" ++ printTimeSamples animation.translations indent
  ++ indent ++ tabs 2 ++ "\x7d\n"
  ++ indent ++ tab ++ "\x7d\n"

/-- Source `printMatrix` (lines 727-728). -/
def printMatrix (mtx : Mat) : String :=
  "custom matrix4d xformOp:transform = (" ++ printVectors mtx ++ ")"

/-- Source `printTimeTransforms` (lines 730-736). -/
def printTimeTransforms (timeCodes : List (ℤ × Mat)) (indent : String) : String :=
  indent ++ tab ++ "matrix4d xformOp:transform:transforms.timeSamples = \x7b\n"
  ++ timeCodes.foldl
      (fun src tc =>
        src ++ indent ++ tabs 2 ++ Int.repr tc.1 ++ ": ("
          ++ printVectors tc.2 ++ "),\n")
      ""
  ++ indent ++ tab ++ "\x7d\n"
  ++ indent ++ tab ++ "uniform token[] xformOpOrder = [\"xformOp:transform:transforms\"]\n"

/-- Source `printTimeCodes` (lines 738-743); reads the frame range keys
stored in the options dict. -/
def printTimeCodes (options : Options) : String :=
  "(\n"
  ++ tab ++ "endTimeCode = " ++ Int.repr options.endTimeCode ++ "\n"
  ++ tab ++ "startTimeCode = " ++ Int.repr options.startTimeCode ++ "\n"
  ++ tab ++ "timeCodesPerSecond = " ++ Int.repr options.timeCodesPerSecond ++ "\n"
  ++ ")\n"

mutual

/-- Source `printRigidObject` (lines 745-759). -/
def printRigidObject : ObjRecord → Options → String → String
  | .mk name meshes matrix _ _ _ timeSamples children, options, indent =>
    indent ++ "def Xform \"" ++ name ++ "\"\n"
    ++ indent ++ "\x7b\n"
    ++ (if options.animated then printTimeTransforms timeSamples indent
        else
          indent ++ tab ++ printMatrix matrix ++ "\n"
          ++ indent ++ tab ++ "uniform token[] xformOpOrder = [\"xformOp:transform\"]\n")
    ++ indent ++ tab ++ "\n"
    ++ (if children.length ≠ 0 then
          printObjects children options (indent ++ tab) ++ indent ++ tab ++ "\n"
        else "")
    ++ printMeshes meshes options indent
    ++ indent ++ "\x7d\n\n"

/-- Source `printSkinnedObject` (lines 761-769).  The source reads
`obj['skeleton']` and `obj['animation']` unguarded (bpy data for a
skinned root always carries both; a missing one would raise); absent
values print nothing here. -/
def printSkinnedObject : ObjRecord → Options → String → String
  | .mk name meshes _ skeleton animation _ _ _, options, indent =>
    indent ++ "def SkelRoot \"" ++ name ++ "\"\n"
    ++ indent ++ "\x7b\n"
    ++ printMeshes meshes options indent
    ++ (match skeleton with
        | some s => printSkeleton s indent
        | none => "")
    ++ indent ++ tab ++ "\n"
    ++ (match animation with
        | some a => printSkelAnimation a indent
        | none => "")
    ++ indent ++ "\x7d\n\n"

/-- Source `printObjects` (lines 771-778). -/
def printObjects : List ObjRecord → Options → String → String
  | [], _, _ => ""
  | obj :: rest, options, indent =>
    (match obj.skeleton with
     | none => printRigidObject obj options indent
     | some _ => printSkinnedObject obj options indent)
    ++ printObjects rest options indent

end

/-- Source `printPbrShader` (lines 781-828). -/
def printPbrShader (mat : MaterialRecord) : String :=
  tabs 2 ++ "def Shader \"pbr\"\n"
  ++ tabs 2 ++ "\x7b\n"
  ++ tabs 3 ++ "uniform token info:id = \"UsdPreviewSurface\"\n"
  ++ tabs 3 ++ "float inputs:clearcoat = " ++ fmtG6 mat.clearcoat ++ "\n"
  ++ tabs 3 ++ "float inputs:clearcoatRoughness = " ++ fmtG6 mat.clearcoatRoughness ++ "\n"
  ++ (match mat.colorMap with
      | none => tabs 3 ++ "color3f inputs:diffuseColor = (" ++ printTuple (mat.color.take 3) ++ ")\n"
      | some _ => tabs 3 ++ "color3f inputs:diffuseColor.connect = </Materials/" ++ mat.name ++ "/color_map.outputs:rgb>\n")
  ++ (match mat.emissiveMap with
      | none => tabs 3 ++ "color3f inputs:emissiveColor = (" ++ printTuple (mat.emissive.take 3) ++ ")\n"
      | some _ => tabs 3 ++ "color3f inputs:emissiveColor.connect = </Materials/" ++ mat.name ++ "/emissive_map.outputs:rgb>\n")
  ++ tabs 3 ++ "float inputs:displacement = " ++ fmtG6 mat.displacement ++ "\n"
  ++ tabs 3 ++ "float inputs:ior = " ++ fmtG6 mat.ior ++ "\n"
  ++ (match mat.metallicMap with
      | none => tabs 3 ++ "float inputs:metallic = " ++ fmtG6 mat.metallic ++ "\n"
      | some _ => tabs 3 ++ "float inputs:metallic.connect = </Materials/" ++ mat.name ++ "/metallic_map.outputs:r>\n")
  ++ (match mat.normalMap with
      | none => tabs 3 ++ "normal3f inputs:normal = (0, 0, 1)\n"
      | some _ => tabs 3 ++ "normal3f inputs:normal.connect = </Materials/" ++ mat.name ++ "/normal_map.outputs:rgb>\n")
  ++ (match mat.occlusionMap with
      | none => tabs 3 ++ "float inputs:occlusion = 0\n"
      | some _ => tabs 3 ++ "float inputs:occlusion.connect = </Materials/" ++ mat.name ++ "/ao_map.outputs:r>\n")
  ++ (match mat.roughnessMap with
      | none => tabs 3 ++ "float inputs:roughness = " ++ fmtG6 mat.roughness ++ "\n"
      | some _ => tabs 3 ++ "float inputs:roughness.connect = </Materials/" ++ mat.name ++ "/roughness_map.outputs:r>\n")
  ++ tabs 3 ++ "float inputs:opacity = " ++ fmtG6 mat.opacity ++ "\n"
  ++ tabs 3 ++ "color3f inputs:specularColor = (" ++ printTuple mat.specular ++ ")\n"
  ++ tabs 3 ++ "int inputs:useSpecularWorkflow = " ++ (if mat.specularWorkflow then "1" else "0") ++ "\n"
  ++ tabs 3 ++ "token outputs:displacement\n"
  ++ tabs 3 ++ "token outputs:surface\n"
  ++ tabs 2 ++ "\x7d\n"
  ++ tabs 2 ++ "\n"

/-- Source `printShaderPrimvar` (lines 830-839). -/
def printShaderPrimvar (name : String) : String :=
  tabs 2 ++ "def Shader \"Primvar\"\n"
  ++ tabs 2 ++ "\x7b\n"
  ++ tabs 3 ++ "uniform token info:id = \"UsdPrimvarReader_float2\"\n"
  ++ tabs 3 ++ "float2 inputs:default = (0, 0)\n"
  ++ tabs 3 ++ "token inputs:varname.connect = </Materials/" ++ name ++ ".inputs:frame:stPrimvarName>\n"
  ++ tabs 3 ++ "float2 outputs:result\n"
  ++ tabs 2 ++ "\x7d\n"
  ++ tabs 2 ++ "\n"

/-- Source `printShaderTexture` (lines 841-856). -/
def printShaderTexture (compName matName : String) (defaultVal : Vec)
    (comps : ℕ) (file : Option String) : String :=
  tabs 2 ++ "def Shader \"" ++ compName ++ "\"\n"
  ++ tabs 2 ++ "\x7b\n"
  ++ tabs 3 ++ "uniform token info:id = \"UsdUVTexture\"\n"
  ++ tabs 3 ++ "float4 inputs:default = (" ++ printTuple defaultVal ++ ")\n"
  ++ (match file with
      | some f => tabs 3 ++ "asset inputs:file = @" ++ f ++ "@\n"
      | none => "")
  ++ tabs 3 ++ "float2 inputs:st.connect = </Materials/" ++ matName ++ "/Primvar.outputs:result>\n"
  ++ tabs 3 ++ "token inputs:wrapS = \"repeat\"\n"
  ++ tabs 3 ++ "token inputs:wrapT = \"repeat\"\n"
  ++ (if comps = 3 then tabs 3 ++ "float3 outputs:rgb\n" else tabs 3 ++ "float outputs:r\n")
  ++ tabs 2 ++ "\x7d\n"

/-- Source `printMaterial` (lines 858-885). -/
def printMaterial (mat : MaterialRecord) : String :=
  let name := mat.name
  tab ++ "def Material \"" ++ name ++ "\"\n" ++ tab ++ "\x7b\n"
  ++ tabs 2 ++ "token inputs:frame:stPrimvarName = \"Texture_uv\"\n"
  ++ tabs 2 ++ "token outputs:displacement.connect = </Materials/" ++ name ++ "/pbr.outputs:displacement>\n"
  ++ tabs 2 ++ "token outputs:surface.connect = </Materials/" ++ name ++ "/pbr.outputs:surface>\n"
  ++ tabs 2 ++ "\n"
  ++ printPbrShader mat
  ++ printShaderPrimvar name
  ++ (match mat.colorMap with
      | some _ => printShaderTexture "color_map" name mat.color 3 mat.colorMap ++ "\n"
      | none => "")
  ++ (match mat.normalMap with
      | some _ => printShaderTexture "normal_map" name [0, 0, 1, 1] 3 mat.normalMap ++ "\n"
      | none => "")
  ++ (match mat.occlusionMap with
      | some _ => printShaderTexture "ao_map" name [0, 0, 0, 1] 1 mat.occlusionMap ++ "\n"
      | none => "")
  ++ (match mat.emissiveMap with
      | some _ => printShaderTexture "emissive_map" name mat.emissive 3 mat.emissiveMap ++ "\n"
      | none => "")
  ++ (match mat.metallicMap with
      | some _ => printShaderTexture "metallic_map" name [mat.metallic, mat.metallic, mat.metallic, 1] 1 mat.metallicMap ++ "\n"
      | none => "")
  ++ (match mat.roughnessMap with
      | some _ => printShaderTexture "roughness_map" name [mat.roughness, mat.roughness, mat.roughness, 1] 1 mat.roughnessMap
      | none => "")
  ++ tab ++ "\x7d\n" ++ tab ++ "\n"

/-- Source `printMaterials` (lines 887-894). -/
def printMaterials (materials : List MaterialRecord) (options : Options) : String :=
  if options.exportMaterials ∧ materials.length > 0 then
    "def \"Materials\"\n\x7b\n"
    ++ materials.foldl (fun src material => src ++ printMaterial material) ""
    ++ "\x7d\n\n"
  else ""

/-- Source `writeUSDA` (lines 896-913): compose the document text and
write it to `tempPath + fileName + '.usda'`. -/
def writeUSDA (objs : List ObjRecord) (materials : List MaterialRecord)
    (options : Options) (host : Host) : Host :=
  let usdaFile := options.tempPath ++ options.fileName ++ ".usda"
  let src := "#usda 1.0\n"
    ++ (if options.animated then printTimeCodes options else "")
    ++ "\n"
    ++ printObjects objs options ""
    ++ printMaterials materials options
  host.log (.fileWritten usdaFile src)

/-! ### USDZ / pipeline (source lines 921-995) -/

/-- Source `writeUSDZ` (lines 921-940): invoke the external archiver
with per-material map arguments. -/
def writeUSDZ (materials : List MaterialRecord) (options : Options) (host : Host) : Host :=
  let usdaFile := options.tempPath ++ options.fileName ++ ".usda"
  let usdzFile := options.basePath ++ options.fileName ++ ".usdz"
  let args := ["xcrun", "usdz_converter", usdaFile, usdzFile] ++ ["-v"]
  let args :=
    if options.exportMaterials then
      materials.foldl
        (fun args mat =>
          let mArgs : List String :=
            (match mat.colorMap with
             | some f => ["-color_map", f]
             | none => [])
            ++ (match mat.normalMap with
                | some f => ["-normal_map", f]
                | none => [])
            ++ (match mat.occlusionMap with
                | some f => ["-ao_map", f]
                | none => [])
          if mArgs.length > 0 then args ++ ["-m", "/Materials/" ++ mat.name] ++ mArgs
          else args)
        args
    else args
  host.log (.processRun args)

/-- The fresh directory path returned by `tempfile.mkdtemp()`: a
host-chosen name, modelled by a fixed token. -/
def tempDirName : String := "<tempdir>"

/-- Source `exportUSD` (lines 948-969): create the temp directory,
resolve `tempPath`, read the scene's frame range into the options,
build objects and materials, write the document, invoke the archiver,
and remove the temp directory. -/
def exportUSD (objs : List BObj) (options : Options) (host : Host) :
    Options × Host :=
  let tempDir := tempDirName
  let host := host.log (.tempDirCreated tempDir)
  let options := { options with tempPath := options.basePath }
  let options :=
    if options.fileType = "usdz" ∧ ¬options.keepUSDA then
      { options with tempPath := tempDir ++ "/" }
    else options
  let options :=
    { options with
        startTimeCode := host.frame_start
        endTimeCode := host.frame_end
        timeCodesPerSecond := host.fps }
  match exportObjects objs options host with
  | (objects, options, host) =>
    match exportMaterials objs options host with
    | (materials, host) =>
      let host := writeUSDA objects materials options host
      let host := writeUSDZ materials options host
      let host := host.log (.tempDirRemoved tempDirName)
      (options, host)

/-- Python `str.split(c)` for a one-character separator. -/
def splitOnChar (c : Char) (s : List Char) : List (List Char) :=
  s.foldr
    (fun ch acc =>
      match acc with
      | [] => if ch = c then [[], []] else [[ch]]
      | cur :: rest => if ch = c then [] :: cur :: rest else (ch :: cur) :: rest)
    [[]]

/-- `os.path.split`: split off the last path component at the last
slash. -/
def osPathSplit (p : String) : String × String :=
  let parts := splitOnChar (Char.ofNat 47) p.data
  if parts.length ≤ 1 then ("", p)
  else (String.intercalate "/" (parts.dropLast.map String.mk),
        String.mk (parts.getLastD []))

/-- Python `a, b = s.split('.')`: succeeds exactly when the string has
one dot (a `ValueError` propagates otherwise). -/
def splitExt (name : String) : Option (String × String) :=
  match splitOnChar (Char.ofNat 46) name.data with
  | [a, b] => some (String.mk a, String.mk b)
  | _ => none

/-- Source `organizeObjects` (lines 37-39): remove the active object
from the selection and put it in front.  Python removes by equality of
the objects; host objects are identified here by name.  (When the
active object is not in the list, Python would raise `ValueError`; the
model leaves the list unchanged.) -/
def organizeObjects (active : BObj) (objs : List BObj) : List BObj :=
  let rec removeFirst : List BObj → List BObj
    | [] => []
    | x :: xs => if x.name = active.name then xs else x :: removeFirst xs
  active :: removeFirst objs

/-- The host context handed to the export entry point. -/
structure Context : Type where
  selected_objects : List BObj
  active_object : Option BObj

/-- Source `export_usdz` (lines 977-995): parse the output path, and if
the selection is nonempty with an active object, build the options and
run the pipeline; in all cases return `'FINISHED'`.  `none` models the
`ValueError` raised when the file name does not have exactly one dot. -/
def export_usdz (context : Context) (filepath : String)
    (exportMaterialsFlag : Bool) (keepUSDA : Bool) (bakeAOFlag : Bool)
    (samples : ℕ) (scale : ℚ) (animated : Bool) (host : Host) :
    Option (String × Host) :=
  let sp := osPathSplit filepath
  match splitExt sp.2 with
  | none => none
  | some (fileName, _fileType) =>
    if h : context.selected_objects.length > 0 ∧ context.active_object.isSome then
      let options : Options :=
        { basePath := sp.1 ++ "/"
          fileName := fileName
          fileType := "usdz"
          animated := animated
          exportMaterials := exportMaterialsFlag
          keepUSDA := keepUSDA
          bakeAO := bakeAOFlag
          samples := samples
          scale := scale
          tempPath := ""
          startTimeCode := 0
          endTimeCode := 0
          timeCodesPerSecond := 0 }
      let objects := organizeObjects (context.active_object.get h.2) context.selected_objects
      match exportUSD objects options host with
      | (_, host) => some ("FINISHED", host)
    else some ("FINISHED", host)

/-! ### Concrete fixtures used by witness theorems -/

/-- A 4×4 identity matrix. -/
def idMat : Mat := [[1, 0, 0, 0], [0, 1, 0, 0], [0, 0, 1, 0], [0, 0, 0, 1]]

/-- A small mesh: three vertices, one smooth and one flat triangle. -/
def fixMesh : MeshData :=
  { name := "Cube.001"
    vertices := [⟨[0, 0, 0], [0, 0, 1]⟩, ⟨[1, 0, 0], [0, 0, 1]⟩, ⟨[0, 1, 0], [0, 1, 0]⟩]
    polygons := [⟨[0, 1, 2], true, [0, 0, 1], 0⟩, ⟨[2, 1, 0], false, [1, 0, 0], 0⟩]
    uv_layers := [[[0, 0], [1, 0], [0, 1], [0, 0], [1, 0], [0, 1]]]
    uv_textures := 1
    materials := [] }

/-- A mesh object carrying `fixMesh`, with no materials. -/
def fixObj : BObj :=
  .mk "Cube" "MESH" fixMesh none none (fun _ => idMat) (fun _ => idMat) 0 []
    [[0, 0, 0], [1, 1, 1]]

/-- Baseline options. -/
def fixOptions : Options :=
  { basePath := "/tmp/", fileName := "out", fileType := "usdz", animated := false
    exportMaterials := true, keepUSDA := false, bakeAO := false, samples := 8
    scale := 1, tempPath := "/tmp/", startTimeCode := 1, endTimeCode := 10
    timeCodesPerSecond := 24 }

/-- Baseline host state. -/
def fixHost : Host := { frame_current := 5, frame_start := 1, frame_end := 10, fps := 24, events := [] }

/-- The material name a mesh record gets for a given first material
slot: the sanitized material name, or the default name for an empty
slot (the name `getObjectMaterialName` computes). -/
def slotMaterialName (slot : Option BMat) : String :=
  match slot with
  | some mat => sanitizeName mat.name
  | none => defaultMaterialName

/-- A red and a green internal (non-node) material. -/
def fixMatRed : BMat :=
  { name := "Red.mat", use_nodes := false, nodes := [], texture_slots := []
    diffuse_color := [1, 0, 0], emit := 0, specular_color := [1, 1, 1] }

/-- See `fixMatRed`. -/
def fixMatGreen : BMat :=
  { name := "Green", use_nodes := false, nodes := [], texture_slots := []
    diffuse_color := [0, 1, 0], emit := 0, specular_color := [1, 1, 1] }

/-- `fixMesh` with two material slots; one face per material. -/
def fixMesh2 : MeshData :=
  { fixMesh with
      materials := [some fixMatRed, some fixMatGreen]
      polygons := [⟨[0, 1, 2], true, [0, 0, 1], 0⟩, ⟨[2, 1, 0], false, [1, 0, 0], 1⟩] }

/-- A mesh object with two material slots carrying `fixMesh2`. -/
def fixObj2 : BObj :=
  .mk "Cube" "MESH" fixMesh2 none none (fun _ => idMat) (fun _ => idMat) 2 []
    [[0, 0, 0], [1, 1, 1]]

/-! ### Spec-side characterization of material collection (for C5)

These two definitions follow the spec's words — the stream of real
materials encountered by the traversal, and "collisions silently
deduplicated, first occurrence wins" on sanitized names — to be
compared with what `exportMaterials` computes. -/

/-- The non-`None` materials of the mesh objects the traversal visits,
in traversal order. -/
def specMaterialStream (objs : List BObj) : List BMat :=
  objs.flatMap (fun o =>
    if o.ty = "MESH" ∧ o.data.materials.length > 0 then o.data.materials.reduceOption
    else [])

/-- One step of first-occurrence-wins deduplication keyed by the
sanitized material name. -/
def specFirstStep (sp : List String × List BMat) (m : BMat) : List String × List BMat :=
  if sanitizeName m.name ∈ sp.1 then sp
  else (sp.1 ++ [sanitizeName m.name], sp.2 ++ [m])

/-- First-occurrence-wins deduplication of a material stream, keyed by
the sanitized name (the spec's collision rule). -/
def specDedupFirstWins (l : List BMat) : List BMat :=
  (l.foldl specFirstStep ([], [])).2

/-- The dedup-state invariant: all emitted indices are in range of the
seen-value list. -/
def InvBound (st : List ℕ × List Vec) : Prop := ∀ i ∈ st.1, i < st.2.length

/-- Recognizes the AO bake pass in the event trace. -/
def isBakeEvent : Event → Bool
  | .bakeImage _ _ => true
  | _ => false

/-- `h'` extends `h`'s trace by events none of which is an AO bake. -/
def NoBakeExt (h h' : Host) : Prop :=
  ∃ tail, h'.events = h.events ++ tail ∧ ∀ e ∈ tail, isBakeEvent e = false

/-- `fixMesh` with one material slot but no UV texture layer. -/
def fixMeshNoUV : MeshData :=
  { fixMesh with uv_textures := 0, materials := [some fixMatRed] }

/-- A mesh object with a material but no UV texture layer. -/
def fixObjNoUV : BObj :=
  .mk "Cube" "MESH" fixMeshNoUV none none (fun _ => idMat) (fun _ => idMat) 1 []
    [[0, 0, 0], [1, 1, 1]]

/-- `fixMesh` with one material slot and a UV texture layer. -/
def fixMeshAO : MeshData :=
  { fixMesh with uv_textures := 1, materials := [some fixMatRed] }

/-- A mesh object with a material and a UV texture layer. -/
def fixObjAO : BObj :=
  .mk "Cube" "MESH" fixMeshAO none none (fun _ => idMat) (fun _ => idMat) 1 []
    [[0, 0, 0], [1, 1, 1]]

/-- `fixOptions` with AO baking requested. -/
def fixOptionsAO : Options := { fixOptions with bakeAO := true }

/-- Relation between the `exportMaterials` fold state and the spec-side
first-wins dedup state: same seen-key set, record names determined by
the surviving materials, and the records' sanitized names are exactly
the (duplicate-free) key list. -/
def MatsRel (st : List String × List MaterialRecord × Host)
    (sp : List String × List BMat) : Prop :=
  st.1 = sp.1
  ∧ st.2.1.map MaterialRecord.name
      = sp.2.map (fun m => if m.use_nodes then m.name else sanitizeName m.name)
  ∧ st.2.1.map (fun r => sanitizeName r.name) = sp.1
  ∧ sp.1.Nodup

end UsdzExport

namespace UsdzExport

/-! ## Theorems -/

/-! ### Generic fold helpers -/

theorem list_foldl_inv {α σ : Type _} {P : σ → Prop} {f : σ → α → σ}
    (h : ∀ s a, P s → P (f s a)) : ∀ (l : List α) (s : σ), P s → P (l.foldl f s) := by
  intro l
  induction l with
  | nil => intro s hs; simpa using hs
  | cons a t ih => intro s hs; simpa using ih (f s a) (h s a hs)

/-! ### Deduplication invariants -/

theorem indexOf_lt_length_of_mem {α : Type _} [BEq α] [LawfulBEq α] {a : α} :
    ∀ {l : List α}, a ∈ l → l.indexOf a < l.length := by
  intro l
  induction l with
  | nil => intro h; cases h
  | cons b t ih =>
    intro h
    by_cases hba : b == a
    · simp [List.indexOf_cons, hba]
    · have hmem : a ∈ t := by
        rcases List.mem_cons.1 h with h1 | h1
        · subst h1; simp at hba
        · exact h1
      simp only [List.indexOf_cons, hba, List.length_cons]
      simpa [Nat.succ_lt_succ_iff] using ih hmem

theorem dedupPush_bound {st : List ℕ × List Vec} {v : Vec} {k : ℕ}
    (h : InvBound st) : InvBound (dedupPush st v k) := by
  unfold dedupPush InvBound
  split
  · next hmem =>
    intro i hi
    rcases List.mem_append.1 hi with hold | hrep
    · exact h i hold
    · have := List.eq_of_mem_replicate hrep
      subst this
      exact indexOf_lt_length_of_mem hmem
  · next hmem =>
    intro i hi
    simp only [List.length_append, List.length_cons, List.length_nil]
    rcases List.mem_append.1 hi with hold | hrep
    · exact Nat.lt_succ_of_lt (h i hold)
    · have := List.eq_of_mem_replicate hrep
      subst this
      exact Nat.lt_succ_self _

theorem getIndexedNormals_bound (m : MeshData) :
    InvBound (getIndexedNormals m) := by
  unfold getIndexedNormals
  refine list_foldl_inv (P := InvBound) ?_ m.polygons ([], []) ?_
  · intro st poly hst
    by_cases hs : poly.use_smooth
    · simp only [hs, if_true]
      exact list_foldl_inv (P := InvBound)
        (fun st i h => dedupPush_bound h) poly.vertices st hst
    · simp only [hs, if_false]
      exact dedupPush_bound hst
  · intro i hi
    simp at hi

theorem getIndexedUVs_bound (m : MeshData) :
    InvBound (getIndexedUVs m) := by
  unfold getIndexedUVs
  refine list_foldl_inv (P := InvBound)
    (fun st uv h => dedupPush_bound h) m.activeUVData ([], []) ?_
  intro i hi
  simp at hi

/-- The four invariants of one mesh record's topology arrays, stated
against the mesh the record is extracted from. -/
theorem meshData_invariants (m : MeshData)
    (hv : ∀ p ∈ m.polygons, ∀ i ∈ p.vertices, i < m.vertices.length) :
    (getFaceVertexCounts m).sum = (getFaceVertexIndices m).length
    ∧ (∀ i ∈ getFaceVertexIndices m, i < (getVertexPoints m).length)
    ∧ InvBound (getIndexedNormals m)
    ∧ InvBound (getIndexedUVs m) := by
  refine ⟨?_, ?_, getIndexedNormals_bound m, getIndexedUVs_bound m⟩
  · unfold getFaceVertexCounts getFaceVertexIndices
    rw [List.length_flatMap]
    rfl
  · intro i hi
    unfold getFaceVertexIndices at hi
    rcases List.mem_flatMap.1 hi with ⟨p, hp, hip⟩
    have := hv p hp i hip
    simpa [getVertexPoints] using this

theorem BObj.data_withData (o : BObj) (d : MeshData) : (o.withData d).data = d := by
  cases o
  rfl

/-- C1: every mesh record produced by `exportMeshes` has
`sum(faceVertexCounts) = len(faceVertexIndices)`, and its
`faceVertexIndices`, `normalIndices` and `uvIndices` entries are in
range of `points`, `normals` and `uvs` respectively, provided the host
mesh's polygons reference valid vertex indices (as bpy guarantees). -/
theorem exportMeshes_invariants (obj : BObj) (options : Options)
    (hv : ∀ p ∈ obj.data.polygons, ∀ i ∈ p.vertices, i < obj.data.vertices.length) :
    ∀ rec ∈ exportMeshes obj options,
      rec.faceVertexCounts.sum = rec.faceVertexIndices.length
      ∧ (∀ i ∈ rec.faceVertexIndices, i < rec.points.length)
      ∧ (∀ i ∈ rec.normalIndices, i < rec.normals.length)
      ∧ (∀ i ∈ rec.uvIndices, i < rec.uvs.length) := by
  intro rec hrec
  simp only [exportMeshes] at hrec
  rcases List.mem_map.1 hrec with ⟨o, ho, rfl⟩
  have hvalid : ∀ p ∈ o.data.polygons, ∀ i ∈ p.vertices, i < o.data.vertices.length := by
    -- the parts handled by the loop all carry polygons of the original
    -- mesh over the original vertex list
    by_cases hmm : obj.material_slots > 1
    · simp only [hmm, if_true] at ho
      rcases List.mem_map.1 ho with ⟨md, hmd, rfl⟩
      rcases List.mem_map.1 hmd with ⟨i, _, rfl⟩
      rw [BObj.data_withData]
      by_cases huv : obj.data.uv_layers.length = 0 <;>
      · simp only [huv, if_true, if_false, separateByMaterial, BObj.data_withData]
        intro p hp j hj
        have hp' : p ∈ obj.data.polygons ∧ p.material_index = i := by
          simpa [smart_project, List.mem_filter] using hp
        exact hv p hp'.1 j hj
    · simp only [hmm, if_false, List.mem_singleton] at ho
      subst ho
      by_cases huv : obj.data.uv_layers.length = 0 <;>
        simp only [huv, if_true, if_false, BObj.data_withData, smart_project] <;>
        exact hv
  have h := meshData_invariants o.data hvalid
  exact ⟨h.1, h.2.1, h.2.2.1, h.2.2.2⟩

/-- Witness for C1: the invariant instantiated at a concrete two-face
mesh object. -/
theorem exportMeshes_invariants_witness :
    (∀ p ∈ fixObj.data.polygons, ∀ i ∈ p.vertices, i < fixObj.data.vertices.length)
    ∧ ∀ rec ∈ exportMeshes fixObj fixOptions,
        rec.faceVertexCounts.sum = rec.faceVertexIndices.length
        ∧ (∀ i ∈ rec.faceVertexIndices, i < rec.points.length)
        ∧ (∀ i ∈ rec.normalIndices, i < rec.normals.length)
        ∧ (∀ i ∈ rec.uvIndices, i < rec.uvs.length) :=
  ⟨by decide, exportMeshes_invariants fixObj fixOptions (by decide)⟩

/-! ### Joint index/weight flattening (C10) -/

theorem foldl_set_enumFrom {γ α : Type _} (f : γ → α) :
    ∀ (l : List γ) (s : ℕ) (acc : List α), s + l.length ≤ acc.length →
      (List.enumFrom s l).foldl (fun ind p => ind.set p.1 (f p.2)) acc
        = acc.take s ++ l.map f ++ acc.drop (s + l.length) := by
  intro l
  induction l with
  | nil =>
    intro s acc _
    simp [List.take_append_drop]
  | cons g t ih =>
    intro s acc hlen
    have hs : s < acc.length := by
      simp only [List.length_cons] at hlen
      omega
    rw [List.enumFrom_cons, List.foldl_cons]
    have hset : acc.set s (f g) = acc.take s ++ f g :: acc.drop (s + 1) := by
      rw [List.set_eq_take_append_cons_drop, if_pos hs]
    have hlen1 : s + 1 + t.length ≤ (acc.set s (f g)).length := by
      simp only [List.length_set]
      simp only [List.length_cons] at hlen
      omega
    rw [ih (s + 1) (acc.set s (f g)) hlen1, hset]
    have hlentake : (acc.take s).length = s := by
      rw [List.length_take]
      omega
    rw [List.take_append_eq_append_take, List.drop_append_eq_append_drop, hlentake]
    have htk : (acc.take s).take (s + 1) = acc.take s :=
      List.take_of_length_le (by rw [hlentake]; omega)
    have hdn : (acc.take s).drop (s + 1 + t.length) = [] :=
      List.drop_eq_nil_of_le (by rw [hlentake]; omega)
    rw [htk, hdn]
    have h1 : s + 1 - s = 1 := by omega
    have h2 : s + 1 + t.length - s = 1 + t.length := by omega
    rw [h1, h2]
    have ht1 : (f g :: acc.drop (s + 1)).take 1 = [f g] := rfl
    rw [ht1]
    have hdrop : (f g :: acc.drop (s + 1)).drop (1 + t.length) = acc.drop (s + (t.length + 1)) := by
      have : 1 + t.length = t.length + 1 := by omega
      rw [this]
      simp only [List.drop_succ_cons]
      rw [List.drop_drop]
      congr 1
      omega
    rw [hdrop]
    simp [List.map_cons]

/-- C10: with `elements = 4` the emitted arrays hold exactly 4 entries
per vertex: the first `min(4, n)` influences in stored order (so
influences beyond the fourth are dropped, not re-sorted), the remaining
slots padded with zeros; both arrays have `4 * #vertices` entries. -/
theorem jointArrays_spec (vertexWeights : List (List (ℕ × ℚ))) :
    getJointIndices vertexWeights 4
      = vertexWeights.flatMap (fun v =>
          (v.take 4).map Prod.fst ++ List.replicate (4 - min 4 v.length) 0)
    ∧ getJointWeights vertexWeights 4
      = vertexWeights.flatMap (fun v =>
          (v.take 4).map Prod.snd ++ List.replicate (4 - min 4 v.length) 0)
    ∧ (getJointIndices vertexWeights 4).length = 4 * vertexWeights.length
    ∧ (getJointWeights vertexWeights 4).length = 4 * vertexWeights.length := by
  have hfill : ∀ {α : Type} (f : ℕ × ℚ → α) (z : α) (v : List (ℕ × ℚ)),
      (v.take 4).enum.foldl (fun ind p => ind.set p.1 (f p.2)) (List.replicate 4 z)
        = (v.take 4).map f ++ List.replicate (4 - min 4 v.length) z := by
    intro α f z v
    have hl : (0 : ℕ) + (v.take 4).length ≤ (List.replicate 4 z).length := by
      simp [List.length_take]
    have := foldl_set_enumFrom f (v.take 4) 0 (List.replicate 4 z) hl
    rw [List.enum_eq_enumFrom]
    rw [this]
    simp only [List.take_zero, List.nil_append, Nat.zero_add, List.drop_replicate,
      List.length_take]
    try rfl
  have hidx : getJointIndices vertexWeights 4
      = vertexWeights.flatMap (fun v =>
          (v.take 4).map Prod.fst ++ List.replicate (4 - min 4 v.length) 0) := by
    unfold getJointIndices
    congr 1
    funext v
    exact hfill (fun p => p.1) 0 v
  have hw : getJointWeights vertexWeights 4
      = vertexWeights.flatMap (fun v =>
          (v.take 4).map Prod.snd ++ List.replicate (4 - min 4 v.length) 0) := by
    unfold getJointWeights
    congr 1
    funext v
    exact hfill (fun p => p.2) 0 v
  have hlen : ∀ {α : Type} (g : List (ℕ × ℚ) → List α),
      (∀ v, (g v).length = 4) →
      (vertexWeights.flatMap g).length = 4 * vertexWeights.length := by
    intro α g hg
    rw [List.length_flatMap]
    have : List.map (List.length ∘ g) vertexWeights = List.replicate vertexWeights.length 4 := by
      rw [List.eq_replicate_iff]
      constructor
      · simp
      · intro b hb
        rcases List.mem_map.1 hb with ⟨v, _, rfl⟩
        exact hg v
    rw [this, List.sum_replicate, smul_eq_mul, Nat.mul_comm]
  refine ⟨hidx, hw, ?_, ?_⟩
  · rw [hidx]
    refine hlen _ (fun v => ?_)
    simp only [List.length_append, List.length_map, List.length_replicate, List.length_take]
    omega
  · rw [hw]
    refine hlen _ (fun v => ?_)
    simp only [List.length_append, List.length_map, List.length_replicate, List.length_take]
    omega

/-! ### Bind/rest transform duplication (C7) -/

/-- C7: bind and rest transforms are computed identically (each bone's
`matrix_local` through `exportMatrix`), and both sequences are
index-aligned with the joint tokens; stated both for the raw exports
and for any skeleton record `exportSkeleton` produces. -/
theorem bindTransforms_eq_restTransforms (obj : BObj) (host : Host) (s : SkelRecord)
    (h : exportSkeleton obj host = some s) :
    s.bindTransforms = s.restTransforms
    ∧ s.bindTransforms.length = s.jointTokens.length
    ∧ s.restTransforms.length = s.jointTokens.length
    ∧ ∀ arm : BObj, exportBindTransforms arm = exportRestTransforms arm := by
  have hfun : ∀ arm : BObj, exportBindTransforms arm = exportRestTransforms arm :=
    fun _ => rfl
  unfold exportSkeleton at h
  match hp : obj.parent with
  | none => rw [hp] at h; cases h
  | some arm =>
    rw [hp] at h
    dsimp only at h
    by_cases harm : arm.ty = "ARMATURE"
    · rw [if_pos harm] at h
      cases h
      refine ⟨hfun arm, ?_, ?_, hfun⟩ <;>
        simp [exportBindTransforms, exportRestTransforms, exportJointTokens]
    · rw [if_neg harm] at h
      cases h

/-! ### Fixtures for armature-based witnesses -/

/-- A two-bone chain: `root` with child `tip.001`. -/
def fixRootBone : DataBone := .mk "root" none idMat [0, 0, 0]

/-- The child bone of `fixRootBone`. -/
def fixTipBone : DataBone := .mk "tip.001" (some fixRootBone) idMat [0, 1, 0]

/-- A root pose bone with constant channels. -/
def fixRootPose : PoseBone :=
  .mk none (fun _ => [1, 0, 0, 0]) (fun _ => [1, 1, 1]) (fun _ => [0, 0, 0]) 1

/-- A child pose bone of `fixRootPose`. -/
def fixTipPose : PoseBone :=
  .mk (some fixRootPose) (fun _ => [1, 0, 0, 0]) (fun _ => [1, 1, 1]) (fun _ => [0, 2, 0]) 1

/-- An armature object with the two-bone chain and an action. -/
def fixArm : BObj :=
  .mk "Armature" "ARMATURE" fixMesh
    (some { bones := [fixRootBone, fixTipBone]
            poseBones := [fixRootPose, fixTipPose]
            action := some "Action.001" })
    none (fun _ => idMat) (fun _ => idMat) 0 [] []

/-- A mesh object parented to `fixArm`. -/
def fixSkinnedObj : BObj :=
  .mk "Body" "MESH" fixMesh none (some fixArm) (fun _ => idMat) (fun _ => idMat)
    0 [] [[0, 0, 0], [1, 1, 1]]

/-- Witness for C7 at the concrete armature scene. -/
theorem bindTransforms_eq_restTransforms_witness :
    ∃ s : SkelRecord, exportSkeleton fixSkinnedObj fixHost = some s
      ∧ (s.bindTransforms = s.restTransforms
         ∧ s.bindTransforms.length = s.jointTokens.length
         ∧ s.restTransforms.length = s.jointTokens.length
         ∧ ∀ arm : BObj, exportBindTransforms arm = exportRestTransforms arm) :=
  ⟨_, rfl, bindTransforms_eq_restTransforms fixSkinnedObj fixHost _ rfl⟩

/-! ### Frame-sampling loops (C4) -/

theorem sampleLoop_spec (g : ℤ → Mat) :
    ∀ (frames : List ℤ) (host : Host) (acc : List (ℤ × Mat)),
      (sampleLoop g frames host acc).2 = acc ++ frames.map (fun f => (f, g f))
      ∧ (sampleLoop g frames host acc).1.events = host.events := by
  intro frames
  induction frames with
  | nil => intro host acc; simp [sampleLoop]
  | cons f rest ih =>
    intro host acc
    rw [sampleLoop]
    refine ⟨?_, ?_⟩
    · rw [(ih _ _).1]
      simp [Host.frameSet]
    · rw [(ih _ _).2]
      rfl

theorem skelLoop_spec (g1 g2 g3 : ℤ → List Vec) :
    ∀ (frames : List ℤ) (host : Host) (r s t : List (ℤ × List Vec)),
      (skelLoop g1 g2 g3 frames host r s t).2.1 = r ++ frames.map (fun f => (f, g1 f))
      ∧ (skelLoop g1 g2 g3 frames host r s t).2.2.1 = s ++ frames.map (fun f => (f, g2 f))
      ∧ (skelLoop g1 g2 g3 frames host r s t).2.2.2 = t ++ frames.map (fun f => (f, g3 f))
      ∧ (skelLoop g1 g2 g3 frames host r s t).1.events = host.events := by
  intro frames
  induction frames with
  | nil => intro host r s t; simp [skelLoop]
  | cons f rest ih =>
    intro host r s t
    rw [skelLoop]
    refine ⟨?_, ?_, ?_, ?_⟩
    · rw [(ih _ _ _ _).1]; simp [Host.frameSet]
    · rw [(ih _ _ _ _).2.1]; simp [Host.frameSet]
    · rw [(ih _ _ _ _).2.2.1]; simp [Host.frameSet]
    · rw [(ih _ _ _ _).2.2.2]; rfl

/-- C4: with the configured range `[1, 10]`, the three skeletal
animation tables and the transform time-sample tables each consist of
exactly 10 entries keyed `1..10` in increasing order, and every
sampling routine leaves the host's current frame as it found it (each
has a single exit path, so this covers every exit). -/
theorem timeSample_tables (arm obj : BObj) (options : Options) (host : Host)
    (h1 : options.startTimeCode = 1) (h2 : options.endTimeCode = 10) :
    ((exportSkelAnimation arm options host).1.rotations.map Prod.fst
        = [1, 2, 3, 4, 5, 6, 7, 8, 9, 10]
      ∧ (exportSkelAnimation arm options host).1.scales.map Prod.fst
        = [1, 2, 3, 4, 5, 6, 7, 8, 9, 10]
      ∧ (exportSkelAnimation arm options host).1.translations.map Prod.fst
        = [1, 2, 3, 4, 5, 6, 7, 8, 9, 10]
      ∧ (exportSkelAnimation arm options host).1.rotations.length = 10
      ∧ (exportSkelAnimation arm options host).1.scales.length = 10
      ∧ (exportSkelAnimation arm options host).1.translations.length = 10
      ∧ (exportSkelAnimation arm options host).2.2.frame_current = host.frame_current)
    ∧ ((exportRootTimeSamples obj options host).1.map Prod.fst
        = [1, 2, 3, 4, 5, 6, 7, 8, 9, 10]
      ∧ (exportRootTimeSamples obj options host).1.length = 10
      ∧ (exportRootTimeSamples obj options host).2.frame_current = host.frame_current)
    ∧ ((exportLocalTimeSamples obj options host).1.map Prod.fst
        = [1, 2, 3, 4, 5, 6, 7, 8, 9, 10]
      ∧ (exportLocalTimeSamples obj options host).1.length = 10
      ∧ (exportLocalTimeSamples obj options host).2.frame_current = host.frame_current) := by
  have hrange : intRange options.startTimeCode options.endTimeCode
      = [1, 2, 3, 4, 5, 6, 7, 8, 9, 10] := by
    rw [h1, h2]
    decide
  have hskel := skelLoop_spec
    (fun fr => arm.armPoseBones.map (fun bone => bone.rotation_quaternion fr))
    (fun fr => getArmatureScales arm options.scale fr)
    (fun fr => getArmatureTranslations arm options.scale fr)
    (intRange options.startTimeCode options.endTimeCode) host [] [] []
  have hroot := sampleLoop_spec (fun fr => exportRootMatrix (obj.matrix_world fr) options)
    (intRange options.startTimeCode options.endTimeCode) host []
  have hlocal := sampleLoop_spec (fun fr => exportMatrix (obj.matrix_local fr))
    (intRange options.startTimeCode options.endTimeCode) host []
  have hrot : (exportSkelAnimation arm options host).1.rotations
      = (intRange options.startTimeCode options.endTimeCode).map
          (fun f => (f, arm.armPoseBones.map (fun bone => bone.rotation_quaternion f))) := by
    simpa [exportSkelAnimation] using hskel.1
  have hsc : (exportSkelAnimation arm options host).1.scales
      = (intRange options.startTimeCode options.endTimeCode).map
          (fun f => (f, getArmatureScales arm options.scale f)) := by
    simpa [exportSkelAnimation] using hskel.2.1
  have htr : (exportSkelAnimation arm options host).1.translations
      = (intRange options.startTimeCode options.endTimeCode).map
          (fun f => (f, getArmatureTranslations arm options.scale f)) := by
    simpa [exportSkelAnimation] using hskel.2.2.1
  have hrootS : (exportRootTimeSamples obj options host).1
      = (intRange options.startTimeCode options.endTimeCode).map
          (fun f => (f, exportRootMatrix (obj.matrix_world f) options)) := by
    simpa [exportRootTimeSamples] using hroot.1
  have hlocalS : (exportLocalTimeSamples obj options host).1
      = (intRange options.startTimeCode options.endTimeCode).map
          (fun f => (f, exportMatrix (obj.matrix_local f))) := by
    simpa [exportLocalTimeSamples] using hlocal.1
  refine ⟨⟨?_, ?_, ?_, ?_, ?_, ?_, ?_⟩, ⟨?_, ?_, ?_⟩, ⟨?_, ?_, ?_⟩⟩
  · rw [hrot, hrange]; simp [List.map_map, Function.comp]
  · rw [hsc, hrange]; simp [List.map_map, Function.comp]
  · rw [htr, hrange]; simp [List.map_map, Function.comp]
  · rw [hrot, hrange]; simp
  · rw [hsc, hrange]; simp
  · rw [htr, hrange]; simp
  · simp [exportSkelAnimation, Host.frameSet]
  · rw [hrootS, hrange]; simp [List.map_map, Function.comp]
  · rw [hrootS, hrange]; simp
  · simp [exportRootTimeSamples, Host.frameSet]
  · rw [hlocalS, hrange]; simp [List.map_map, Function.comp]
  · rw [hlocalS, hrange]; simp
  · simp [exportLocalTimeSamples, Host.frameSet]

/-! ### Deduplication idempotence (C6) -/

theorem dedupPush_nodup {st : List ℕ × List Vec} {v : Vec} {k : ℕ}
    (h : st.2.Nodup) : (dedupPush st v k).2.Nodup := by
  unfold dedupPush
  split
  · exact h
  · next hmem =>
    show (st.2 ++ [v]).Nodup
    rw [List.nodup_append]
    refine ⟨h, List.nodup_singleton v, ?_⟩
    intro a ha hav
    rcases List.mem_singleton.1 hav with rfl
    exact hmem ha

theorem getIndexedNormals_nodup (m : MeshData) : (getIndexedNormals m).2.Nodup := by
  unfold getIndexedNormals
  refine list_foldl_inv (P := fun st : List ℕ × List Vec => st.2.Nodup) ?_ m.polygons ([], []) ?_
  · intro st poly hst
    by_cases hs : poly.use_smooth
    · simp only [hs, if_true]
      exact list_foldl_inv (P := fun st : List ℕ × List Vec => st.2.Nodup)
        (fun st i h => dedupPush_nodup h) poly.vertices st hst
    · simp only [hs, if_false]
      exact dedupPush_nodup hst
  · simp

theorem getIndexedUVs_nodup (m : MeshData) : (getIndexedUVs m).2.Nodup := by
  unfold getIndexedUVs
  refine list_foldl_inv (P := fun st : List ℕ × List Vec => st.2.Nodup)
    (fun st uv h => dedupPush_nodup h) m.activeUVData ([], []) ?_
  simp

/-- Running the dedup fold over values none of which was seen yet (and
which are themselves duplicate-free) appends them all, emitting the
fresh consecutive indices. -/
theorem dedup_fold_fresh :
    ∀ (vs : List Vec) (is : List ℕ) (seen : List Vec), (seen ++ vs).Nodup →
      vs.foldl (fun st v => dedupPush st v 1) (is, seen)
        = (is ++ List.range' seen.length vs.length, seen ++ vs) := by
  intro vs
  induction vs with
  | nil => intro is seen _; simp
  | cons v t ih =>
    intro is seen hnd
    have hnd' : ((seen ++ [v]) ++ t).Nodup := by
      rw [← List.append_cons]
      exact hnd
    have hv : v ∉ seen := by
      have h1 : (seen ++ [v]).Nodup := hnd'.of_append_left
      have h2 := (List.nodup_append.1 h1).2.2
      intro hmem
      exact h2 hmem (List.mem_singleton_self v)
    rw [List.foldl_cons]
    have hstep : dedupPush (is, seen) v 1 = (is ++ [seen.length], seen ++ [v]) := by
      unfold dedupPush
      rw [if_neg (by simpa using hv)]
      simp
    rw [hstep]
    rw [ih (is ++ [seen.length]) (seen ++ [v]) hnd']
    simp only [Prod.mk.injEq, List.length_append, List.length_cons, List.length_nil]
    refine ⟨?_, ?_⟩
    · rw [List.range'_succ]
      simp [Nat.add_comm]
    · simp

theorem getD_map_vertex (ns : List Vec) (i : ℕ) :
    ((ns.map (fun n => Vertex.mk [] n)).getD i ⟨[], []⟩).normal = ns.getD i [] := by
  rw [List.getD_eq_getElem?_getD, List.getD_eq_getElem?_getD, List.getElem?_map]
  cases h : ns[i]? with
  | none => simp [h]
  | some a => simp [h]

theorem map_getD_range {α : Type _} (d : α) :
    ∀ l : List α, (List.range l.length).map (fun i => l.getD i d) = l := by
  intro l
  induction l with
  | nil => simp
  | cons a t ih =>
    rw [List.length_cons, List.range_succ_eq_map, List.map_cons, List.map_map]
    have hcomp : ((fun i => (a :: t).getD i d) ∘ Nat.succ) = fun i => t.getD i d := by
      funext i
      rfl
    rw [hcomp, ih]
    rfl

/-- C6: extraction applied to the mesh carrying `m`'s deduplicated
normals and UVs returns those arrays unchanged, with the identity index
sequence — deduplication is idempotent. -/
theorem dedup_idempotent (m : MeshData) :
    getIndexedNormals (dedupedMesh m)
      = (List.range (getIndexedNormals m).2.length, (getIndexedNormals m).2)
    ∧ getIndexedUVs (dedupedMesh m)
      = (List.range (getIndexedUVs m).2.length, (getIndexedUVs m).2) := by
  constructor
  · set ns := (getIndexedNormals m).2 with hns
    have hnodup : ns.Nodup := by rw [hns]; exact getIndexedNormals_nodup m
    have hpolys : (dedupedMesh m).polygons
        = [{ vertices := List.range ns.length
             use_smooth := true
             normal := []
             material_index := 0 }] := by
      rw [hns]
      rfl
    have hvn : ∀ i, (dedupedMesh m).vertexNormal i = ns.getD i [] := by
      intro i
      rw [hns]
      exact getD_map_vertex _ i
    unfold getIndexedNormals
    rw [hpolys]
    simp only [List.foldl_cons, List.foldl_nil, if_true]
    simp only [hvn]
    rw [← List.foldl_map (fun i => ns.getD i []) (fun st v => dedupPush st v 1),
      map_getD_range]
    rw [dedup_fold_fresh ns [] [] (by simpa using hnodup)]
    simp [List.range_eq_range']
  · set us := (getIndexedUVs m).2 with hus
    have hnodup : us.Nodup := by rw [hus]; exact getIndexedUVs_nodup m
    have hdata : (dedupedMesh m).activeUVData = us := by
      rw [hus]
      rfl
    unfold getIndexedUVs
    rw [hdata]
    rw [dedup_fold_fresh us [] [] (by simpa using hnodup)]
    simp [List.range_eq_range']

/-- Witness for C4 at a concrete armature, mesh object, options with
frame range `[1, 10]`, and host. -/
theorem timeSample_tables_witness :
    fixOptions.startTimeCode = 1 ∧ fixOptions.endTimeCode = 10
    ∧ ((exportRootTimeSamples fixObj fixOptions fixHost).1.map Prod.fst
        = [1, 2, 3, 4, 5, 6, 7, 8, 9, 10]
      ∧ (exportSkelAnimation fixArm fixOptions fixHost).2.2.frame_current
        = fixHost.frame_current) :=
  ⟨rfl, rfl,
    (timeSample_tables fixArm fixObj fixOptions fixHost rfl rfl).2.1.1,
    (timeSample_tables fixArm fixObj fixOptions fixHost rfl rfl).1.2.2.2.2.2.2⟩

/-! ### Per-material mesh splitting (C3) -/

theorem sum_map_add (g h : ℕ → ℕ) :
    ∀ l : List ℕ, (l.map (fun i => g i + h i)).sum = (l.map g).sum + (l.map h).sum := by
  intro l
  induction l with
  | nil => simp
  | cons a t ih => simp [ih]; omega

theorem sum_indicator_range (k : ℕ) :
    ∀ n : ℕ, ((List.range n).map (fun i => if k = i then (1 : ℕ) else 0)).sum
      = if k < n then 1 else 0 := by
  intro n
  induction n with
  | zero => simp
  | succ n ih =>
    rw [List.range_succ, List.map_append, List.sum_append, ih]
    by_cases hk : k = n
    · subst hk
      simp
    · by_cases hlt : k < n
      · rw [if_pos hlt, if_pos (by omega)]
        simp [hk]
      · rw [if_neg hlt, if_neg (by omega)]
        simp [hk]

theorem bucket_sum (n : ℕ) :
    ∀ polys : List Polygon, (∀ p ∈ polys, p.material_index < n) →
      ((List.range n).map
        (fun i => (polys.filter (fun p => p.material_index = i)).length)).sum
        = polys.length := by
  intro polys
  induction polys with
  | nil => simp
  | cons p ps ih =>
    intro h
    have hp := h p (List.mem_cons_self p ps)
    have hps : ∀ q ∈ ps, q.material_index < n :=
      fun q hq => h q (List.mem_cons_of_mem _ hq)
    have hfun : (fun i => (((p :: ps).filter (fun q => q.material_index = i)).length))
        = fun i => (if p.material_index = i then 1 else 0)
            + ((ps.filter (fun q => q.material_index = i)).length) := by
      funext i
      rw [List.filter_cons]
      by_cases hpi : p.material_index = i
      · simp [hpi]
        omega
      · simp [hpi]
    rw [hfun, sum_map_add, sum_indicator_range, if_pos hp, ih hps]
    simp [Nat.add_comm]

theorem BObj.ty_withData (o : BObj) (d : MeshData) : (o.withData d).ty = o.ty := by
  cases o
  rfl

theorem getObjectMaterialName_withData (o : BObj) (d : MeshData) (s : Option BMat)
    (hty : o.ty = "MESH") (hm : d.materials = [s]) :
    getObjectMaterialName (o.withData d) = slotMaterialName s := by
  unfold getObjectMaterialName getObjectMaterial
  rw [BObj.ty_withData, BObj.data_withData, hm, hty]
  have hcond : ("MESH" : String) = "MESH" ∧ ([s] : List (Option BMat)).length > 0 :=
    ⟨rfl, by simp⟩
  rw [if_pos hcond]
  cases s <;> simp [slotMaterialName]

/-- C3: on a mesh-typed object with more than one material slot,
`exportMeshes` yields exactly one record per material slot, named
`<baseName>_<materialName>` for that slot's material, and the records'
face counts sum to the original mesh's face count; with at most one
slot it yields the single record `<baseName>`.  Hypotheses: the object's
slot count mirrors the mesh's material list and face material indices
are in range (bpy invariants). -/
theorem exportMeshes_split (obj : BObj) (options : Options)
    (hty : obj.ty = "MESH")
    (hslots : obj.material_slots = obj.data.materials.length)
    (hmat : ∀ p ∈ obj.data.polygons, p.material_index < obj.data.materials.length) :
    (obj.data.materials.length > 1 →
      (exportMeshes obj options).length = obj.data.materials.length
      ∧ (exportMeshes obj options).map MeshRecord.name
          = (List.range obj.data.materials.length).map (fun i =>
              sanitizeName obj.data.name ++ "_"
                ++ slotMaterialName (obj.data.materials.getD i none))
      ∧ ((exportMeshes obj options).map (fun r => r.faceVertexCounts.length)).sum
          = obj.data.polygons.length)
    ∧ (obj.data.materials.length ≤ 1 →
      (exportMeshes obj options).map MeshRecord.name = [sanitizeName obj.data.name]) := by
  constructor
  · intro hgt
    have hmm : obj.material_slots > 1 := by rw [hslots]; exact hgt
    simp only [exportMeshes, hmm, if_true, List.map_map]
    by_cases huv : obj.data.uv_layers.length = 0 <;>
    · simp only [huv, if_true, if_false, separateByMaterial, BObj.data_withData,
        List.map_map, List.length_map, List.length_range]
      refine ⟨by trivial, ?_, ?_⟩
      · refine List.map_congr_left ?_
        intro i hi
        simp only [Function.comp]
        congr 1
        exact getObjectMaterialName_withData _ _ _
          (by simp [BObj.ty_withData, hty]) rfl
      · rw [← bucket_sum obj.data.materials.length obj.data.polygons hmat]
        refine congrArg List.sum (List.map_congr_left ?_)
        intro i hi
        simp [Function.comp, getFaceVertexCounts, BObj.data_withData, smart_project]
  · intro hle
    have hmm : ¬(obj.material_slots > 1) := by omega
    simp [exportMeshes, hmm]

/-! ### Material collection (C5) -/

theorem sanitizeName_idem (s : String) : sanitizeName (sanitizeName s) = sanitizeName s := by
  unfold sanitizeName
  have hdata : (String.mk (s.data.map (fun c => if c = '.' then '_' else c))).data
      = s.data.map (fun c => if c = '.' then '_' else c) := rfl
  rw [hdata, List.map_map]
  have hff : ((fun c => if c = '.' then '_' else c) ∘ fun c => if c = '.' then '_' else c)
      = fun c => if c = '.' then '_' else c := by
    funext c
    by_cases hc : c = '.'
    · simp [Function.comp, hc]
    · simp [Function.comp, hc]
  rw [hff]

theorem exportMaterial_name (m : BMat) (options : Options) (host : Host) :
    (exportMaterial (some m) options host).1.name
      = if m.use_nodes then m.name else sanitizeName m.name := by
  cases hn : m.use_nodes <;> simp only [exportMaterial, hn] <;> rfl

theorem slotFold_rel (options : Options) (aoMap : Option String) :
    ∀ (slots : List (Option BMat)) (st : List String × List MaterialRecord × Host)
      (sp : List String × List BMat), MatsRel st sp →
      MatsRel (slots.foldl (materialSlotStep options aoMap) st)
              (slots.reduceOption.foldl specFirstStep sp) := by
  intro slots
  induction slots with
  | nil => intro st sp h; simpa using h
  | cons s t ih =>
    intro st sp h
    obtain ⟨names, mats, host⟩ := st
    cases s with
    | none =>
      rw [List.foldl_cons]
      have hs : materialSlotStep options aoMap (names, mats, host) none
          = (names, mats, host) := rfl
      rw [hs]
      have hro : (none :: t : List (Option BMat)).reduceOption = t.reduceOption := by
        simp [List.reduceOption]
      rw [hro]
      exact ih _ _ h
    | some m =>
      rw [List.foldl_cons]
      have hro : ((some m) :: t : List (Option BMat)).reduceOption
          = m :: t.reduceOption := by
        simp [List.reduceOption]
      rw [hro, List.foldl_cons]
      by_cases hkey : sanitizeName m.name ∈ names
      · have h1 : materialSlotStep options aoMap (names, mats, host) (some m)
            = (names, mats, host) := by
          simp [materialSlotStep, hkey]
        have h2 : specFirstStep sp m = sp := by
          unfold specFirstStep
          rw [if_pos (by rw [← h.1]; exact hkey)]
        rw [h1, h2]
        exact ih _ _ h
      · rcases hem : exportMaterial (some m) options host with ⟨record, host2⟩
        have h1 : materialSlotStep options aoMap (names, mats, host) (some m)
            = (names ++ [sanitizeName m.name],
               mats ++ [{ record with occlusionMap := aoMap }], host2) := by
          simp [materialSlotStep, hkey, hem]
        have h2 : specFirstStep sp m = (sp.1 ++ [sanitizeName m.name], sp.2 ++ [m]) := by
          unfold specFirstStep
          rw [if_neg (by rw [← h.1]; exact hkey)]
        rw [h1, h2]
        obtain ⟨e1, e2, e3, e4⟩ := h
        dsimp only at e1 e2 e3
        have hname : record.name = if m.use_nodes then m.name else sanitizeName m.name := by
          have hr := exportMaterial_name m options host
          rw [hem] at hr
          exact hr
        have hrn : ({ record with occlusionMap := aoMap } : MaterialRecord).name
            = record.name := rfl
        refine ih _ _ ⟨?_, ?_, ?_, ?_⟩
        · show names ++ [sanitizeName m.name] = sp.1 ++ [sanitizeName m.name]
          rw [e1]
        · show (mats ++ [{ record with occlusionMap := aoMap }]).map MaterialRecord.name
            = (sp.2 ++ [m]).map
                (fun q : BMat => if q.use_nodes then q.name else sanitizeName q.name)
          rw [List.map_append, List.map_append, e2]
          congr 1
          simp [hrn, hname]
        · show (mats ++ [{ record with occlusionMap := aoMap }]).map
              (fun r : MaterialRecord => sanitizeName r.name)
            = sp.1 ++ [sanitizeName m.name]
          rw [List.map_append, e3]
          congr 1
          simp only [List.map_cons, List.map_nil, hrn, hname]
          cases hn : m.use_nodes
          · simp [hn, sanitizeName_idem]
          · simp [hn]
        · show (sp.1 ++ [sanitizeName m.name]).Nodup
          rw [List.nodup_append]
          refine ⟨e4, List.nodup_singleton _, ?_⟩
          intro a ha hav
          rcases List.mem_singleton.1 hav with rfl
          rw [← e1] at ha
          exact hkey ha

theorem objFold_rel (options : Options) :
    ∀ (objs : List BObj) (st : List String × List MaterialRecord × Host)
      (sp : List String × List BMat), MatsRel st sp →
      MatsRel (objs.foldl (fun st obj => exportMaterialsStep obj options st) st)
              ((specMaterialStream objs).foldl specFirstStep sp) := by
  intro objs
  induction objs with
  | nil => intro st sp h; simpa [specMaterialStream] using h
  | cons o t ih =>
    intro st sp h
    have hstream : specMaterialStream (o :: t)
        = (if o.ty = "MESH" ∧ o.data.materials.length > 0
           then o.data.materials.reduceOption else [])
          ++ specMaterialStream t := by
      simp [specMaterialStream]
    rw [List.foldl_cons, hstream, List.foldl_append]
    obtain ⟨names, mats, host⟩ := st
    by_cases hg : o.ty = "MESH" ∧ o.data.materials.length > 0
    · rw [if_pos hg]
      have hstep : exportMaterialsStep o options (names, mats, host)
          = o.data.materials.foldl
              (materialSlotStep options
                (if options.bakeAO then
                  (bakeAO o (sanitizeName (firstSlotName o) ++ "_ao.png") options host).1
                 else none))
              (names, mats,
                (if options.bakeAO then
                  (bakeAO o (sanitizeName (firstSlotName o) ++ "_ao.png") options host).2
                 else host)) := by
        unfold exportMaterialsStep
        dsimp only
        rw [if_pos hg]
        by_cases hb : options.bakeAO
        · simp [hb]
        · simp [hb]
      rw [hstep]
      refine ih _ _ ?_
      exact slotFold_rel _ _ _ _ _ ⟨h.1, h.2.1, h.2.2.1, h.2.2.2⟩
    · rw [if_neg hg]
      have hstep : exportMaterialsStep o options (names, mats, host)
          = (names, mats, host) := by
        unfold exportMaterialsStep
        dsimp only
        rw [if_neg hg]
      rw [hstep]
      exact ih _ _ h

theorem specFold_snd_mono :
    ∀ (l : List BMat) (sp : List String × List BMat),
      ∃ tail, (l.foldl specFirstStep sp).2 = sp.2 ++ tail := by
  intro l
  induction l with
  | nil => intro sp; exact ⟨[], by simp⟩
  | cons m t ih =>
    intro sp
    rw [List.foldl_cons]
    by_cases hk : sanitizeName m.name ∈ sp.1
    · have hs : specFirstStep sp m = sp := by unfold specFirstStep; rw [if_pos hk]
      rw [hs]
      exact ih sp
    · have hs : specFirstStep sp m = (sp.1 ++ [sanitizeName m.name], sp.2 ++ [m]) := by
        unfold specFirstStep; rw [if_neg hk]
      rw [hs]
      rcases ih (sp.1 ++ [sanitizeName m.name], sp.2 ++ [m]) with ⟨tail, htail⟩
      exact ⟨[m] ++ tail, by rw [htail]; simp⟩

theorem slotFold_none (options : Options) (aoMap : Option String) :
    ∀ (slots : List (Option BMat)), (∀ s ∈ slots, s = none) →
      ∀ st, slots.foldl (materialSlotStep options aoMap) st = st := by
  intro slots
  induction slots with
  | nil => intro _ st; rfl
  | cons s t ih =>
    intro h st
    have hs : s = none := h s (List.mem_cons_self s t)
    subst hs
    rw [List.foldl_cons]
    obtain ⟨names, mats, host⟩ := st
    have : materialSlotStep options aoMap (names, mats, host) none = (names, mats, host) := rfl
    rw [this]
    exact ih (fun q hq => h q (List.mem_cons_of_mem _ hq)) _

theorem noRealFold (options : Options) :
    ∀ (objs : List BObj) (st : List String × List MaterialRecord × Host),
      (∀ o ∈ objs, o.ty = "MESH" →
        (o.data.materials = [] ∨ (options.bakeAO = false ∧ ∀ s ∈ o.data.materials, s = none))) →
      (objs.foldl (fun st obj => exportMaterialsStep obj options st) st).1 = st.1
      ∧ (objs.foldl (fun st obj => exportMaterialsStep obj options st) st).2.1 = st.2.1 := by
  intro objs
  induction objs with
  | nil => intro st _; exact ⟨rfl, rfl⟩
  | cons o t ih =>
    intro st h
    have ho := h o (List.mem_cons_self o t)
    have ht : ∀ q ∈ t, q.ty = "MESH" →
        (q.data.materials = [] ∨ (options.bakeAO = false ∧ ∀ s ∈ q.data.materials, s = none)) :=
      fun q hq => h q (List.mem_cons_of_mem _ hq)
    rw [List.foldl_cons]
    obtain ⟨names, mats, host⟩ := st
    have hstep : ∃ host2, exportMaterialsStep o options (names, mats, host)
        = (names, mats, host2) := by
      by_cases hg : o.ty = "MESH" ∧ o.data.materials.length > 0
      · rcases ho hg.1 with hempty | ⟨hba, hnone⟩
        · exfalso
          rw [hempty] at hg
          simp at hg
        · refine ⟨host, ?_⟩
          unfold exportMaterialsStep
          dsimp only
          rw [if_pos hg]
          rw [if_neg (by simp [hba])]
          exact slotFold_none options none o.data.materials hnone _
      · refine ⟨host, ?_⟩
        unfold exportMaterialsStep
        dsimp only
        rw [if_neg hg]
    rcases hstep with ⟨host2, hstep⟩
    rw [hstep]
    exact ih (names, mats, host2) ht

/-- C5: when the traversal finds no real material, `exportMaterials`
returns exactly the single all-default record named "DefaultMaterial";
and in every case the returned names are exactly the
first-occurrence-wins deduplication (keyed by sanitized name) of the
encountered materials, hence pairwise distinct. -/
theorem exportMaterials_spec (objs : List BObj) (options : Options) (host : Host) :
    ((∀ o ∈ objs, o.ty = "MESH" →
        (o.data.materials = [] ∨ (options.bakeAO = false ∧ ∀ s ∈ o.data.materials, s = none))) →
      (exportMaterials objs options host).1 = [getDefaultMaterial])
    ∧ (exportMaterials objs options host).1.map MaterialRecord.name
        = (if (specMaterialStream objs).isEmpty then [defaultMaterialName]
           else (specDedupFirstWins (specMaterialStream objs)).map
                  (fun q : BMat => if q.use_nodes then q.name else sanitizeName q.name))
    ∧ List.Pairwise (fun a b : MaterialRecord => a.name ≠ b.name)
        (exportMaterials objs options host).1 := by
  rcases hscan : objs.foldl (fun st obj => exportMaterialsStep obj options st) ([], [], host)
    with ⟨namesF, matsF, hostF⟩
  have hrel := objFold_rel options objs ([], [], host) ([], [])
    ⟨rfl, rfl, rfl, List.nodup_nil⟩
  rw [hscan] at hrel
  obtain ⟨r1, r2, r3, r4⟩ := hrel
  dsimp only at r1 r2 r3
  have hexp : (exportMaterials objs options host).1
      = if matsF.length = 0 then [getDefaultMaterial] else matsF := by
    unfold exportMaterials
    rw [hscan]
    dsimp only
    by_cases h0 : matsF.length = 0
    · simp [h0]
    · simp [h0]
  refine ⟨?_, ?_, ?_⟩
  · intro hyp
    have hempty := (noRealFold options objs ([], [], host) hyp).2
    rw [hscan] at hempty
    dsimp only at hempty
    rw [hexp, hempty]
    simp
  · by_cases hstream : specMaterialStream objs = []
    · have hb : (specMaterialStream objs).isEmpty = true := by simp [hstream]
      simp only [hb, if_true]
      rw [hstream] at r2
      simp only [List.foldl_nil, List.map_nil] at r2
      have hm0 : matsF = [] := List.map_eq_nil_iff.1 r2
      rw [hexp, hm0]
      simp [getDefaultMaterial]
    · have hb : (specMaterialStream objs).isEmpty = false := by
        simp [List.isEmpty_iff, hstream]
      simp only [hb, Bool.false_eq_true, if_false]
      rcases List.exists_cons_of_ne_nil hstream with ⟨m, rest, hms⟩
      have hnonempty : (specDedupFirstWins (specMaterialStream objs)) ≠ [] := by
        unfold specDedupFirstWins
        rw [hms, List.foldl_cons]
        have hfirst : specFirstStep ([], []) m
            = ([sanitizeName m.name], [m]) := by
          unfold specFirstStep
          rw [if_neg (by simp)]
          rfl
        rw [hfirst]
        rcases specFold_snd_mono rest ([sanitizeName m.name], [m]) with ⟨tail, htail⟩
        rw [htail]
        simp
      have hm0 : matsF ≠ [] := by
        intro h0
        rw [h0] at r2
        exact hnonempty (List.map_eq_nil_iff.1 r2.symm)
      rw [hexp, if_neg (by simpa using fun h => hm0 (List.length_eq_zero.1 h))]
      exact r2
  · have hpair : ∀ l : List MaterialRecord,
        (l.map (fun r : MaterialRecord => sanitizeName r.name)).Nodup →
        List.Pairwise (fun a b : MaterialRecord => a.name ≠ b.name) l := by
      intro l hl
      have hp := List.pairwise_map.1 hl
      exact hp.imp (fun hne heq => hne (by rw [heq]))
    by_cases h0 : matsF.length = 0
    · rw [hexp, if_pos h0]
      simp
    · rw [hexp, if_neg h0]
      refine hpair matsF ?_
      rw [r3]
      exact r4

/-- Witness for C5: a selection whose only mesh object has no material
slots. -/
theorem exportMaterials_spec_witness :
    (∀ o ∈ [fixObj], o.ty = "MESH" →
      (o.data.materials = []
        ∨ (fixOptions.bakeAO = false ∧ ∀ s ∈ o.data.materials, s = none)))
    ∧ (exportMaterials [fixObj] fixOptions fixHost).1 = [getDefaultMaterial] := by
  have h : ∀ o ∈ [fixObj], o.ty = "MESH" →
      (o.data.materials = []
        ∨ (fixOptions.bakeAO = false ∧ ∀ s ∈ o.data.materials, s = none)) := by
    intro o ho _
    rcases List.mem_singleton.1 ho with rfl
    left
    rfl
  exact ⟨h, (exportMaterials_spec [fixObj] fixOptions fixHost).1 h⟩

/-! ### Ambient-occlusion baking (C8) -/

theorem NoBakeExt.rfl (h : Host) : NoBakeExt h h :=
  ⟨[], by simp, by simp⟩

theorem NoBakeExt.trans {a b c : Host} (h1 : NoBakeExt a b) (h2 : NoBakeExt b c) :
    NoBakeExt a c := by
  rcases h1 with ⟨t1, he1, hb1⟩
  rcases h2 with ⟨t2, he2, hb2⟩
  refine ⟨t1 ++ t2, ?_, ?_⟩
  · rw [he2, he1, List.append_assoc]
  · intro e he
    rcases List.mem_append.1 he with h | h
    · exact hb1 e h
    · exact hb2 e h

theorem saveImage_noBake (host : Host) (p : String) : NoBakeExt host (saveImage host p) :=
  ⟨[.imageSaved p], by simp [saveImage, Host.log], by simp [isBakeEvent]⟩

theorem exportInputImage_noBake (input : SVal × List MNode) (fileName : String)
    (options : Options) (host : Host) :
    NoBakeExt host (exportInputImage input fileName options host).2 := by
  unfold exportInputImage
  cases input.2.find? (fun node => node.ty = "TEX_IMAGE" ∧ node.image ≠ none) with
  | none => exact NoBakeExt.rfl host
  | some n => exact saveImage_noBake host _

theorem exportMaterial_noBake (mat : Option BMat) (options : Options) (host : Host) :
    NoBakeExt host (exportMaterial mat options host).2 := by
  cases mat with
  | none => exact NoBakeExt.rfl host
  | some m =>
    by_cases hn : m.use_nodes
    · -- cycles path: up to four image exports in sequence
      simp only [exportMaterial, hn, if_true]
      unfold exportCyclesMaterial
      cases hs : getSurfaceShaderNode m with
      | none => exact NoBakeExt.rfl host
      | some node =>
        by_cases hp : node.ty = "BSDF_PRINCIPLED"
        · simp only [hp, if_true]
          unfold exportPrincipledBSDF
          exact ((((exportInputImage_noBake _ _ options host).trans
            (exportInputImage_noBake _ _ options _)).trans
            (exportInputImage_noBake _ _ options _)).trans
            (exportInputImage_noBake _ _ options _))
        · by_cases hd : node.ty = "BSDF_DIFFUSE"
          · simp only [hp, hd, if_true, if_false]
            unfold exportDiffuseBSDF
            exact (((exportInputImage_noBake _ _ options host).trans
              (exportInputImage_noBake _ _ options _)).trans
              (exportInputImage_noBake _ _ options _))
          · simp only [hp, hd, if_false]
            exact NoBakeExt.rfl host
    · simp only [exportMaterial, hn, if_false, Bool.false_eq_true]
      unfold exportInternalMaterial extractInternalColorMap extractInternalNormalMap
      cases m.texture_slots.find? (fun s =>
          match s with
          | some slot => slot.use_map_color_diffuse ∧ slot.texture_type = "IMAGE"
              ∧ slot.texture_image ≠ none
          | none => false) with
      | none =>
        cases m.texture_slots.find? (fun s =>
            match s with
            | some slot => slot.use_map_normal ∧ slot.texture_type = "IMAGE"
                ∧ slot.texture_image ≠ none
            | none => false) with
        | none => exact NoBakeExt.rfl host
        | some _ => exact saveImage_noBake host _
      | some _ =>
        cases m.texture_slots.find? (fun s =>
            match s with
            | some slot => slot.use_map_normal ∧ slot.texture_type = "IMAGE"
                ∧ slot.texture_image ≠ none
            | none => false) with
        | none => exact saveImage_noBake host _
        | some _ => exact (saveImage_noBake host _).trans (saveImage_noBake _ _)

theorem slotFold_noBake (options : Options) (aoMap : Option String) :
    ∀ (slots : List (Option BMat)) (st : List String × List MaterialRecord × Host),
      NoBakeExt st.2.2 ((slots.foldl (materialSlotStep options aoMap) st)).2.2 := by
  intro slots
  induction slots with
  | nil => intro st; exact NoBakeExt.rfl _
  | cons s t ih =>
    intro st
    obtain ⟨names, mats, host⟩ := st
    rw [List.foldl_cons]
    have hstep : NoBakeExt host (materialSlotStep options aoMap (names, mats, host) s).2.2 := by
      cases s with
      | none => exact NoBakeExt.rfl host
      | some m =>
        by_cases hkey : sanitizeName m.name ∈ names
        · have h1 : materialSlotStep options aoMap (names, mats, host) (some m)
              = (names, mats, host) := by simp [materialSlotStep, hkey]
          rw [h1]
          exact NoBakeExt.rfl host
        · rcases hem : exportMaterial (some m) options host with ⟨record, host2⟩
          have h1 : materialSlotStep options aoMap (names, mats, host) (some m)
              = (names ++ [sanitizeName m.name],
                 mats ++ [{ record with occlusionMap := aoMap }], host2) := by
            simp [materialSlotStep, hkey, hem]
          rw [h1]
          have := exportMaterial_noBake (some m) options host
          rw [hem] at this
          exact this
    exact hstep.trans (ih _)

theorem slotFold_appended (options : Options) (aoMap : Option String) :
    ∀ (slots : List (Option BMat)) (st : List String × List MaterialRecord × Host),
      ∃ newrecs, ((slots.foldl (materialSlotStep options aoMap) st)).2.1
          = st.2.1 ++ newrecs
        ∧ ∀ r ∈ newrecs, r.occlusionMap = aoMap := by
  intro slots
  induction slots with
  | nil => intro st; exact ⟨[], by simp, by simp⟩
  | cons s t ih =>
    intro st
    obtain ⟨names, mats, host⟩ := st
    rw [List.foldl_cons]
    cases s with
    | none =>
      have h0 : materialSlotStep options aoMap (names, mats, host) none
          = (names, mats, host) := rfl
      rw [h0]
      exact ih (names, mats, host)
    | some m =>
      by_cases hkey : sanitizeName m.name ∈ names
      · have h1 : materialSlotStep options aoMap (names, mats, host) (some m)
            = (names, mats, host) := by simp [materialSlotStep, hkey]
        rw [h1]
        exact ih (names, mats, host)
      · rcases hem : exportMaterial (some m) options host with ⟨record, host2⟩
        have h1 : materialSlotStep options aoMap (names, mats, host) (some m)
            = (names ++ [sanitizeName m.name],
               mats ++ [{ record with occlusionMap := aoMap }], host2) := by
          simp [materialSlotStep, hkey, hem]
        rw [h1]
        rcases ih (names ++ [sanitizeName m.name],
          mats ++ [{ record with occlusionMap := aoMap }], host2) with ⟨newrecs, hnew, hocc⟩
        refine ⟨{ record with occlusionMap := aoMap } :: newrecs, ?_, ?_⟩
        · dsimp only at hnew ⊢
          rw [hnew]
          simp
        · intro r hr
          rcases List.mem_cons.1 hr with rfl | hr
          · rfl
          · exact hocc r hr

/-- C8 (amended): when AO baking is requested, then for a mesh object
with at least one material slot and a UV-texture layer, the loop body
of `exportMaterials` performs the AO bake exactly once — attributed to
that object, with the file named after its first material slot — and
every material record it appends carries that file as its occlusion
map.  (A mesh without a UV-texture layer is not baked at all; see the
counterexample.) -/
theorem bakeAO_per_mesh (obj : BObj) (options : Options)
    (names : List String) (mats : List MaterialRecord) (host : Host)
    (hbake : options.bakeAO = true) (hmesh : obj.ty = "MESH")
    (hmats : obj.data.materials.length > 0) (huv : obj.data.uv_textures > 0) :
    (exportMaterialsStep obj options (names, mats, host)).2.2.events.filter isBakeEvent
      = host.events.filter isBakeEvent
        ++ [Event.bakeImage obj.name (sanitizeName (firstSlotName obj) ++ "_ao.png")]
    ∧ ∀ r ∈ (exportMaterialsStep obj options (names, mats, host)).2.1.drop mats.length,
        r.occlusionMap = some (sanitizeName (firstSlotName obj) ++ "_ao.png") := by
  have hstep : exportMaterialsStep obj options (names, mats, host)
      = obj.data.materials.foldl
          (materialSlotStep options
            (some (sanitizeName (firstSlotName obj) ++ "_ao.png")))
          (names, mats,
            ((host.log (.bakeImage obj.name (sanitizeName (firstSlotName obj) ++ "_ao.png"))).log
              (.imageSaved (options.tempPath ++ (sanitizeName (firstSlotName obj) ++ "_ao.png"))))) := by
    unfold exportMaterialsStep
    dsimp only
    rw [if_pos ⟨hmesh, hmats⟩]
    rw [if_pos hbake]
    unfold bakeAO
    rw [if_pos huv]
  rw [hstep]
  set host2 : Host :=
    ((host.log (.bakeImage obj.name (sanitizeName (firstSlotName obj) ++ "_ao.png"))).log
      (.imageSaved (options.tempPath ++ (sanitizeName (firstSlotName obj) ++ "_ao.png"))))
    with hhost2
  constructor
  · have hnb := slotFold_noBake options
      (some (sanitizeName (firstSlotName obj) ++ "_ao.png"))
      obj.data.materials (names, mats, host2)
    rcases hnb with ⟨tail, htail, hbtail⟩
    dsimp only at htail
    rw [htail]
    rw [List.filter_append]
    have htail0 : tail.filter isBakeEvent = [] :=
      List.filter_eq_nil_iff.2 (by intro e he; simp [hbtail e he])
    rw [htail0, List.append_nil]
    have hh2 : host2.events
        = host.events
          ++ [Event.bakeImage obj.name (sanitizeName (firstSlotName obj) ++ "_ao.png"),
              Event.imageSaved (options.tempPath ++ (sanitizeName (firstSlotName obj) ++ "_ao.png"))] := by
      rw [hhost2]
      simp [Host.log]
    rw [hh2, List.filter_append]
    simp [isBakeEvent]
  · rcases slotFold_appended options
      (some (sanitizeName (firstSlotName obj) ++ "_ao.png"))
      obj.data.materials (names, mats, host2) with ⟨newrecs, hnew, hocc⟩
    dsimp only at hnew
    rw [hnew, List.drop_left]
    exact hocc

/-- Witness for C8 (amended) at a mesh with one material and a UV
texture layer. -/
theorem bakeAO_per_mesh_witness :
    (fixOptionsAO.bakeAO = true ∧ fixObjAO.ty = "MESH"
      ∧ fixObjAO.data.materials.length > 0 ∧ fixObjAO.data.uv_textures > 0)
    ∧ ((exportMaterialsStep fixObjAO fixOptionsAO ([], [], fixHost)).2.2.events.filter isBakeEvent
        = fixHost.events.filter isBakeEvent
          ++ [Event.bakeImage fixObjAO.name (sanitizeName (firstSlotName fixObjAO) ++ "_ao.png")]
      ∧ ∀ r ∈ (exportMaterialsStep fixObjAO fixOptionsAO ([], [], fixHost)).2.1.drop
            ([] : List MaterialRecord).length,
          r.occlusionMap = some (sanitizeName (firstSlotName fixObjAO) ++ "_ao.png")) :=
  ⟨⟨rfl, rfl, by decide, by decide⟩,
    bakeAO_per_mesh fixObjAO fixOptionsAO [] [] fixHost rfl rfl (by decide) (by decide)⟩

/-- Counterexample to C8 as stated: AO baking requested for a
one-material mesh without a UV-texture layer — no bake is performed
(the trace stays empty) and the produced record carries no occlusion
map. -/
theorem bakeAO_claim_counterexample :
    fixOptionsAO.bakeAO = true
    ∧ (exportMaterials [fixObjNoUV] fixOptionsAO fixHost).2.events = []
    ∧ (exportMaterials [fixObjNoUV] fixOptionsAO fixHost).1.map MaterialRecord.occlusionMap
        = [none] := by
  refine ⟨rfl, ?_, ?_⟩ <;> rfl

/-! ### Formatter round-trip (C2) -/

theorem qpow10_eq_zpow (z : ℤ) : qpow10 z = (10 : ℚ) ^ z := by
  unfold qpow10
  by_cases hz : 0 ≤ z
  · rw [if_pos hz, Nat.cast_pow]
    rw [show ((10 : ℕ) : ℚ) = (10 : ℚ) by norm_num]
    rw [← zpow_natCast (10 : ℚ) z.toNat, Int.toNat_of_nonneg hz]
  · rw [if_neg hz, Nat.cast_pow]
    rw [show ((10 : ℕ) : ℚ) = (10 : ℚ) by norm_num]
    rw [← zpow_natCast (10 : ℚ) (-z).toNat, Int.toNat_of_nonneg (by omega)]
    rw [one_div, ← zpow_neg, neg_neg]

theorem rhe_intCast (k : ℤ) : rhe (k : ℚ) = k := by
  unfold rhe
  have hfl : qfloor (k : ℚ) = k := by
    rw [qfloor_eq_floor, Int.floor_intCast]
  rw [hfl]
  rw [if_pos (by norm_num)]

theorem roundPy_eq_self {m j : ℤ} (hj : -6 ≤ j) :
    roundPy ((m : ℚ) * qpow10 j) 6 = (m : ℚ) * qpow10 j := by
  unfold roundPy
  have h10 : (10 : ℚ) ≠ 0 := by norm_num
  have hk : ((j + 6).toNat : ℤ) = j + 6 := Int.toNat_of_nonneg (by omega)
  have h1 : (m : ℚ) * qpow10 j * qpow10 ((6 : ℕ) : ℤ)
      = ((m * 10 ^ (j + 6).toNat : ℤ) : ℚ) := by
    rw [qpow10_eq_zpow, qpow10_eq_zpow]
    push_cast
    rw [← zpow_natCast (10 : ℚ) (j + 6).toNat, hk, zpow_add₀ h10]
    ring
  rw [h1, rhe_intCast]
  rw [qpow10_eq_zpow, qpow10_eq_zpow]
  push_cast
  rw [← zpow_natCast (10 : ℚ) (j + 6).toNat, hk, zpow_add₀ h10]
  have h6 : (10 : ℚ) ^ (6 : ℤ) * (10 : ℚ) ^ (-((6 : ℕ) : ℤ)) = 1 := by
    rw [← zpow_add₀ h10]
    norm_num
  calc (m : ℚ) * ((10 : ℚ) ^ j * (10 : ℚ) ^ (6 : ℤ)) * (10 : ℚ) ^ (-((6 : ℕ) : ℤ))
      = (m : ℚ) * (10 : ℚ) ^ j * ((10 : ℚ) ^ (6 : ℤ) * (10 : ℚ) ^ (-((6 : ℕ) : ℤ))) := by ring
    _ = (m : ℚ) * (10 : ℚ) ^ j := by rw [h6, mul_one]

theorem decExp_bounds (a : ℚ) (ha : 0 < a) :
    (10 : ℚ) ^ (decExp a - 1) ≤ a ∧ a < (10 : ℚ) ^ (decExp a) := by
  have h10 : (10 : ℚ) ≠ 0 := by norm_num
  set p := a.num.natAbs with hp
  set q := a.den with hq
  have hpne : p ≠ 0 := by
    rw [hp]
    have : 0 < a.num := Rat.num_pos.2 ha
    omega
  have hqne : q ≠ 0 := by rw [hq]; exact a.den_nz
  have hqpos : 0 < q := a.den_pos
  have haeq : a = (p : ℚ) / (q : ℚ) := by
    rw [hp, hq, Int.cast_natAbs, Int.cast_abs,
      abs_of_nonneg (by exact_mod_cast le_of_lt (Rat.num_pos.2 ha) :
        (0 : ℚ) ≤ (a.num : ℚ)),
      Rat.num_div_den]
  set lp := Nat.log 10 p with hlp
  set lq := Nat.log 10 q with hlq
  have hp1 : ((10 : ℚ)) ^ (lp : ℤ) ≤ (p : ℚ) := by
    rw [zpow_natCast]
    exact_mod_cast Nat.pow_log_le_self 10 hpne
  have hp2 : (p : ℚ) < (10 : ℚ) ^ ((lp : ℤ) + 1) := by
    rw [show (lp : ℤ) + 1 = ((lp + 1 : ℕ) : ℤ) by push_cast; ring, zpow_natCast]
    exact_mod_cast Nat.lt_pow_succ_log_self (by norm_num) p
  have hq1 : ((10 : ℚ)) ^ (lq : ℤ) ≤ (q : ℚ) := by
    rw [zpow_natCast]
    exact_mod_cast Nat.pow_log_le_self 10 hqne
  have hq2 : (q : ℚ) < (10 : ℚ) ^ ((lq : ℤ) + 1) := by
    rw [show (lq : ℤ) + 1 = ((lq + 1 : ℕ) : ℤ) by push_cast; ring, zpow_natCast]
    exact_mod_cast Nat.lt_pow_succ_log_self (by norm_num) q
  have hppos : (0 : ℚ) < (p : ℚ) := by
    have : 0 < p := Nat.pos_of_ne_zero hpne
    exact_mod_cast this
  have hqposQ : (0 : ℚ) < (q : ℚ) := by exact_mod_cast hqpos
  have hlow : (10 : ℚ) ^ ((lp : ℤ) - (lq : ℤ) - 1) < a := by
    have s1 : (10 : ℚ) ^ ((lp : ℤ) - (lq : ℤ) - 1)
        = (10 : ℚ) ^ (lp : ℤ) / (10 : ℚ) ^ ((lq : ℤ) + 1) := by
      rw [← zpow_sub₀ h10]
      congr 1
      ring
    have s2 : (10 : ℚ) ^ (lp : ℤ) / (10 : ℚ) ^ ((lq : ℤ) + 1)
        ≤ (p : ℚ) / (10 : ℚ) ^ ((lq : ℤ) + 1) := by
      rw [div_le_div_iff_of_pos_right (zpow_pos (by norm_num) _)]
      exact hp1
    have s3 : (p : ℚ) / (10 : ℚ) ^ ((lq : ℤ) + 1) < (p : ℚ) / (q : ℚ) :=
      div_lt_div_of_pos_left hppos hqposQ hq2
    rw [haeq]
    calc (10 : ℚ) ^ ((lp : ℤ) - (lq : ℤ) - 1)
        ≤ (p : ℚ) / (10 : ℚ) ^ ((lq : ℤ) + 1) := by rw [s1] at *; exact s2
      _ < (p : ℚ) / (q : ℚ) := s3
  have hhigh : a < (10 : ℚ) ^ ((lp : ℤ) - (lq : ℤ) + 1) := by
    have s1 : (10 : ℚ) ^ ((lp : ℤ) - (lq : ℤ) + 1)
        = (10 : ℚ) ^ ((lp : ℤ) + 1) / (10 : ℚ) ^ (lq : ℤ) := by
      rw [← zpow_sub₀ h10]
      congr 1
      ring
    have s2 : (p : ℚ) / (q : ℚ) < (10 : ℚ) ^ ((lp : ℤ) + 1) / (q : ℚ) := by
      rw [div_lt_div_iff_of_pos_right hqposQ]
      exact hp2
    have s3 : (10 : ℚ) ^ ((lp : ℤ) + 1) / (q : ℚ)
        ≤ (10 : ℚ) ^ ((lp : ℤ) + 1) / (10 : ℚ) ^ (lq : ℤ) :=
      div_le_div_of_nonneg_left (le_of_lt (zpow_pos (by norm_num) _))
        (zpow_pos (by norm_num) _) hq1
    rw [haeq, s1]
    exact lt_of_lt_of_le s2 s3
  have hd : decExp a = if a < qpow10 ((lp : ℤ) - (lq : ℤ)) then (lp : ℤ) - (lq : ℤ)
      else (lp : ℤ) - (lq : ℤ) + 1 := by
    unfold decExp
    dsimp only
  by_cases hcase : a < qpow10 ((lp : ℤ) - (lq : ℤ))
  · rw [hd, if_pos hcase]
    constructor
    · exact le_of_lt hlow
    · rw [qpow10_eq_zpow] at hcase
      exact hcase
  · rw [hd, if_neg hcase]
    constructor
    · rw [qpow10_eq_zpow] at hcase
      have : (10 : ℚ) ^ ((lp : ℤ) - (lq : ℤ)) ≤ a := le_of_not_lt hcase
      simpa using this
    · exact hhigh

theorem sig6_exact (m j : ℤ) (hm : m ≠ 0) (hm6 : m.natAbs < 10 ^ 6) :
    sig6 ((m : ℚ) * qpow10 j) = (m : ℚ) * qpow10 j := by
  have h10 : (10 : ℚ) ≠ 0 := by norm_num
  have hmQ : ((m : ℚ)) ≠ 0 := by exact_mod_cast hm
  have hpj : (0 : ℚ) < (10 : ℚ) ^ j := zpow_pos (by norm_num) j
  have hfne : (m : ℚ) * qpow10 j ≠ 0 := by
    rw [qpow10_eq_zpow]
    exact mul_ne_zero hmQ (ne_of_gt hpj)
  unfold sig6
  rw [if_neg hfne]
  dsimp only
  have habs : |(m : ℚ) * qpow10 j| = (m.natAbs : ℚ) * (10 : ℚ) ^ j := by
    rw [qpow10_eq_zpow, abs_mul, abs_of_pos hpj, Int.cast_natAbs, Int.cast_abs]
  have hapos : (0 : ℚ) < |(m : ℚ) * qpow10 j| := abs_pos.2 hfne
  obtain ⟨hb1, hb2⟩ := decExp_bounds _ hapos
  set n := decExp |(m : ℚ) * qpow10 j| with hn
  have hnatpos : 0 < m.natAbs := Int.natAbs_pos.2 hm
  have hnatQ : (1 : ℚ) ≤ (m.natAbs : ℚ) := by exact_mod_cast hnatpos
  have hub : |(m : ℚ) * qpow10 j| < (10 : ℚ) ^ (j + 6) := by
    rw [habs, zpow_add₀ h10]
    have hmlt : (m.natAbs : ℚ) < (10 : ℚ) ^ (6 : ℤ) := by
      rw [show ((10 : ℚ) ^ (6 : ℤ)) = ((10 ^ 6 : ℕ) : ℚ) by push_cast; norm_num]
      exact_mod_cast hm6
    calc (m.natAbs : ℚ) * (10 : ℚ) ^ j
        < (10 : ℚ) ^ (6 : ℤ) * (10 : ℚ) ^ j := by
          exact mul_lt_mul_of_pos_right hmlt hpj
      _ = (10 : ℚ) ^ j * (10 : ℚ) ^ (6 : ℤ) := by ring
  have hnle : n ≤ j + 6 := by
    have : (10 : ℚ) ^ (n - 1) < (10 : ℚ) ^ (j + 6) := lt_of_le_of_lt hb1 hub
    have hlt : n - 1 < j + 6 := (zpow_lt_zpow_iff_right₀ (by norm_num)).1 this
    omega
  have hkeq : ((j + 6 - n).toNat : ℤ) = j + 6 - n := Int.toNat_of_nonneg (by omega)
  have hint : |(m : ℚ) * qpow10 j| * qpow10 (6 - n)
      = ((m.natAbs * 10 ^ (j + 6 - n).toNat : ℕ) : ℚ) := by
    rw [habs, qpow10_eq_zpow]
    push_cast
    rw [← zpow_natCast (10 : ℚ) (j + 6 - n).toNat, hkeq]
    rw [mul_assoc, ← zpow_add₀ h10]
    congr 2
    ring
  rw [hint]
  rw [show ((m.natAbs * 10 ^ (j + 6 - n).toNat : ℕ) : ℚ)
      = (((m.natAbs * 10 ^ (j + 6 - n).toNat : ℕ) : ℤ) : ℚ) by
    push_cast
    rw [Int.cast_natAbs, Int.cast_abs]]
  rw [rhe_intCast]
  rw [show (((m.natAbs * 10 ^ (j + 6 - n).toNat : ℕ) : ℤ) : ℚ)
      = |(m : ℚ) * qpow10 j| * qpow10 (6 - n) by
    rw [hint]
    push_cast
    rw [Int.cast_natAbs, Int.cast_abs]]
  rw [qpow10_eq_zpow, qpow10_eq_zpow, qpow10_eq_zpow]
  have hcancel : (10 : ℚ) ^ ((6 : ℤ) - n) * (10 : ℚ) ^ (n - 6) = 1 := by
    rw [← zpow_add₀ h10]
    norm_num
  by_cases hneg : (m : ℚ) * (10 : ℚ) ^ j < 0
  · rw [if_pos hneg, abs_of_neg hneg]
    calc (-1 : ℚ) * (-((m : ℚ) * (10 : ℚ) ^ j) * (10 : ℚ) ^ ((6 : ℤ) - n))
          * (10 : ℚ) ^ (n - 6)
        = (m : ℚ) * (10 : ℚ) ^ j
            * ((10 : ℚ) ^ ((6 : ℤ) - n) * (10 : ℚ) ^ (n - 6)) := by ring
      _ = (m : ℚ) * (10 : ℚ) ^ j := by rw [hcancel, mul_one]
  · rw [if_neg hneg, abs_of_nonneg (le_of_not_lt hneg)]
    calc (1 : ℚ) * ((m : ℚ) * (10 : ℚ) ^ j * (10 : ℚ) ^ ((6 : ℤ) - n))
          * (10 : ℚ) ^ (n - 6)
        = (m : ℚ) * (10 : ℚ) ^ j
            * ((10 : ℚ) ^ ((6 : ℤ) - n) * (10 : ℚ) ^ (n - 6)) := by ring
      _ = (m : ℚ) * (10 : ℚ) ^ j := by rw [hcancel, mul_one]

/-- C2 (amended): the round-trip is exact (not merely within 1e-6
relative error) on the values the formatter can represent: components
of the form `m * 10^j` with at most six significant digits
(`|m| < 10^6`) and resolution no finer than `10^-6` (`j ≥ -6`).
For general floats the stated 1e-6 relative bound fails — see the
counterexample. -/
theorem printTuple_roundtrip_exact (t : List ℚ)
    (h : ∀ f ∈ t, ∃ m j : ℤ, -6 ≤ j ∧ m.natAbs < 10 ^ 6 ∧ f = (m : ℚ) * qpow10 j) :
    ∀ f ∈ t, roundtrip6 f = f := by
  intro f hf
  rcases h f hf with ⟨m, j, hj, hm6, rfl⟩
  unfold roundtrip6
  rw [roundPy_eq_self hj]
  by_cases hm : m = 0
  · subst hm
    simp [sig6]
  · exact sig6_exact m j hm hm6

/-- Witness for C2 (amended): the round-trip is exact at 123.456. -/
theorem printTuple_roundtrip_exact_witness :
    (∀ f ∈ [(123456 : ℚ) / 1000],
      ∃ m j : ℤ, -6 ≤ j ∧ m.natAbs < 10 ^ 6 ∧ f = (m : ℚ) * qpow10 j)
    ∧ ∀ f ∈ [(123456 : ℚ) / 1000], roundtrip6 f = f := by
  have h : ∀ f ∈ [(123456 : ℚ) / 1000],
      ∃ m j : ℤ, -6 ≤ j ∧ m.natAbs < 10 ^ 6 ∧ f = (m : ℚ) * qpow10 j := by
    intro f hf
    rcases List.mem_singleton.1 hf with rfl
    refine ⟨123456, -3, by norm_num, by norm_num, ?_⟩
    rw [qpow10_eq_zpow]
    norm_num
  exact ⟨h, printTuple_roundtrip_exact _ h⟩

/-- Counterexample to C2 as stated: the tuple `(2^-24,)` (an exactly
representable float) formats to `"0"`, so parsing recovers `0`, at
relative error 1 — far beyond 1e-6. -/
theorem printTuple_roundtrip_counterexample :
    printTuple [1 / 2 ^ 24] = "0"
    ∧ ¬(|roundtrip6 (1 / 2 ^ 24) - 1 / 2 ^ 24| ≤ epslon * |(1 : ℚ) / 2 ^ 24|) := by
  have hq6 : qpow10 ((6 : ℕ) : ℤ) = 1000000 := by
    rw [qpow10_eq_zpow]
    norm_num
  have hx : (1 / 2 ^ 24 : ℚ) * 1000000 = 15625 / 262144 := by norm_num
  have hfl : qfloor (15625 / 262144 : ℚ) = 0 := by
    rw [qfloor_eq_floor, Int.floor_eq_zero_iff]
    constructor <;> norm_num
  have hrhe : rhe (15625 / 262144 : ℚ) = 0 := by
    unfold rhe
    rw [hfl]
    rw [if_pos (by norm_num)]
  have h0 : roundPy ((1 : ℚ) / 2 ^ 24) 6 = 0 := by
    unfold roundPy
    rw [hq6, hx, hrhe]
    simp
  have hrt : roundtrip6 ((1 : ℚ) / 2 ^ 24) = 0 := by
    unfold roundtrip6
    rw [h0]
    simp [sig6]
  constructor
  · unfold printTuple
    rw [List.map_singleton, h0]
    have : fmtG6 0 = "0" := by simp [fmtG6]
    rw [this]
    rfl
  · rw [hrt]
    unfold epslon
    rw [show (0 : ℚ) - 1 / 2 ^ 24 = -(1 / 2 ^ 24) by ring, abs_neg,
      abs_of_nonneg (by norm_num : (0 : ℚ) ≤ 1 / 2 ^ 24)]
    norm_num

/-- Witness for C3: a mesh object with two material slots, one face per
material. -/
theorem exportMeshes_split_witness :
    (fixObj2.ty = "MESH"
      ∧ fixObj2.material_slots = fixObj2.data.materials.length
      ∧ (∀ p ∈ fixObj2.data.polygons, p.material_index < fixObj2.data.materials.length)
      ∧ fixObj2.data.materials.length > 1)
    ∧ ((exportMeshes fixObj2 fixOptions).length = fixObj2.data.materials.length
      ∧ (exportMeshes fixObj2 fixOptions).map MeshRecord.name
          = (List.range fixObj2.data.materials.length).map (fun i =>
              sanitizeName fixObj2.data.name ++ "_"
                ++ slotMaterialName (fixObj2.data.materials.getD i none))
      ∧ ((exportMeshes fixObj2 fixOptions).map (fun r => r.faceVertexCounts.length)).sum
          = fixObj2.data.polygons.length) :=
  ⟨⟨rfl, rfl, by decide, by decide⟩,
    (exportMeshes_split fixObj2 fixOptions rfl rfl (by decide)).1 (by decide)⟩

/-! ### Entry-point exit behavior (C9) -/

theorem Host.log_events (h : Host) (e : Event) : (h.log e).events = h.events ++ [e] := rfl

theorem exportRootTimeSamples_events (obj : BObj) (options : Options) (host : Host) :
    (exportRootTimeSamples obj options host).2.events = host.events :=
  (sampleLoop_spec (fun fr => exportRootMatrix (obj.matrix_world fr) options)
    (intRange options.startTimeCode options.endTimeCode) host []).2

theorem exportLocalTimeSamples_events (obj : BObj) (options : Options) (host : Host) :
    (exportLocalTimeSamples obj options host).2.events = host.events :=
  (sampleLoop_spec (fun fr => exportMatrix (obj.matrix_local fr))
    (intRange options.startTimeCode options.endTimeCode) host []).2

theorem exportTimeSamples_events (obj : BObj) (options : Options) (host : Host) :
    (exportTimeSamples obj options host).2.events = host.events := by
  unfold exportTimeSamples
  split
  · split
    · exact exportRootTimeSamples_events _ _ _
    · split
      · exact exportLocalTimeSamples_events _ _ _
      · rfl
  · rfl

theorem exportSkelAnimation_events (arm : BObj) (options : Options) (host : Host) :
    (exportSkelAnimation arm options host).2.2.events = host.events := by
  show ((skelLoop
      (fun fr => arm.armPoseBones.map (fun bone => bone.rotation_quaternion fr))
      (fun fr => getArmatureScales arm options.scale fr)
      (fun fr => getArmatureTranslations arm options.scale fr)
      (intRange options.startTimeCode options.endTimeCode) host [] [] []).1.frameSet
        host.frame_current).events = host.events
  exact (skelLoop_spec _ _ _ _ _ _ _ _).2.2.2

theorem exportAnimation_events (obj : BObj) (options : Options) (host : Host) :
    (exportAnimation obj options host).2.2.events = host.events := by
  unfold exportAnimation
  cases hp : obj.parent with
  | none => rfl
  | some arm =>
    dsimp only
    by_cases ht : arm.ty = "ARMATURE"
    · rw [if_pos ht]
      show (exportSkelAnimation arm options host).2.2.events = host.events
      exact exportSkelAnimation_events arm options host
    · rw [if_neg ht]

theorem exportObject_events (obj : BObj) (options : Options) (host : Host) :
    (exportObject obj options host).2.2.events = host.events := by
  show (exportTimeSamples obj (exportAnimation obj options host).2.1
      (exportAnimation obj options host).2.2).2.events = host.events
  rw [exportTimeSamples_events, exportAnimation_events]

theorem exportEmpty_events (obj : BObj) (options : Options) (host : Host) :
    (exportEmpty obj options host).2.events = host.events := by
  show (exportTimeSamples obj options host).2.events = host.events
  exact exportTimeSamples_events obj options host

theorem addAncestors_events (options : Options) :
    ∀ (p : BObj) (st : List (String × ObjRecord) × Host),
      (addAncestors options p st).2.events = st.2.events
  | .mk nm ty da ar gp mw ml ms vg bb, (m, host) => by
    rw [addAncestors]
    split
    · cases gp with
      | none =>
        dsimp only
        split
        · rfl
        · show (exportEmpty (BObj.mk nm ty da ar none mw ml ms vg bb) options host).2.events
            = host.events
          exact exportEmpty_events _ options host
      | some g =>
        dsimp only
        rw [addAncestors_events options g _]
        split
        · rfl
        · show (exportEmpty (BObj.mk nm ty da ar (some g) mw ml ms vg bb) options host).2.events
            = host.events
          exact exportEmpty_events _ options host
    · rfl

theorem objFold_events :
    ∀ (objs : List BObj) (st : List (String × ObjRecord) × Options × Host),
      (objs.foldl
        (fun (st : List (String × ObjRecord) × Options × Host) obj =>
          match st with
          | (m, options, host) =>
            if obj.ty = "MESH" then
              match exportObject obj options host with
              | (record, options, host) =>
                let st := (upsert m obj.name record, host)
                match obj.parent with
                | some parent =>
                  match addAncestors options parent st with
                  | (m, host) => (m, options, host)
                | none => (st.1, options, st.2)
            else (m, options, host)) st).2.2.events = st.2.2.events := by
  intro objs
  induction objs with
  | nil => intro st; rfl
  | cons o t ih =>
    intro st
    rw [List.foldl_cons, ih]
    obtain ⟨m, options, host⟩ := st
    dsimp only
    by_cases hm : o.ty = "MESH"
    · rw [if_pos hm]
      cases hp : o.parent with
      | none =>
        show (exportObject o options host).2.2.events = host.events
        exact exportObject_events o options host
      | some parent =>
        show (addAncestors (exportObject o options host).2.1 parent
            (upsert m o.name (exportObject o options host).1,
             (exportObject o options host).2.2)).2.events = host.events
        rw [addAncestors_events]
        exact exportObject_events o options host
    · rw [if_neg hm]

theorem exportObjects_events (objs : List BObj) (options : Options) (host : Host) :
    (exportObjects objs options host).2.2.events = host.events :=
  objFold_events objs ([], options, host)

theorem bakeAO_ext (obj : BObj) (file : String) (options : Options) (host : Host) :
    ∃ tail, (bakeAO obj file options host).2.events = host.events ++ tail := by
  unfold bakeAO
  split
  · exact ⟨[.bakeImage obj.name file, .imageSaved (options.tempPath ++ file)],
      by simp [Host.log]⟩
  · exact ⟨[], by simp⟩

theorem matStep_ext (obj : BObj) (options : Options)
    (st : List String × List MaterialRecord × Host) :
    ∃ tail, (exportMaterialsStep obj options st).2.2.events = st.2.2.events ++ tail := by
  obtain ⟨names, mats, host⟩ := st
  unfold exportMaterialsStep
  dsimp only
  split
  · by_cases hb : options.bakeAO
    · rw [if_pos hb]
      obtain ⟨t1, ht1⟩ :=
        bakeAO_ext obj (sanitizeName (firstSlotName obj) ++ "_ao.png") options host
      obtain ⟨t2, ht2, -⟩ := slotFold_noBake options
        (bakeAO obj (sanitizeName (firstSlotName obj) ++ "_ao.png") options host).1
        obj.data.materials
        (names, mats,
          (bakeAO obj (sanitizeName (firstSlotName obj) ++ "_ao.png") options host).2)
      refine ⟨t1 ++ t2, ?_⟩
      show (obj.data.materials.foldl
          (materialSlotStep options
            (bakeAO obj (sanitizeName (firstSlotName obj) ++ "_ao.png") options host).1)
          (names, mats,
            (bakeAO obj (sanitizeName (firstSlotName obj) ++ "_ao.png")
              options host).2)).2.2.events
        = host.events ++ (t1 ++ t2)
      rw [ht2]
      dsimp only
      rw [ht1]
      simp
    · rw [if_neg hb]
      obtain ⟨t2, ht2, -⟩ := slotFold_noBake options none obj.data.materials (names, mats, host)
      refine ⟨t2, ?_⟩
      show (obj.data.materials.foldl (materialSlotStep options none)
          (names, mats, host)).2.2.events = host.events ++ t2
      rw [ht2]
  · exact ⟨[], by simp⟩

theorem matFold_ext (options : Options) :
    ∀ (objs : List BObj) (st : List String × List MaterialRecord × Host),
      ∃ tail, (objs.foldl (fun st obj => exportMaterialsStep obj options st) st).2.2.events
        = st.2.2.events ++ tail := by
  intro objs
  induction objs with
  | nil => intro st; exact ⟨[], by simp⟩
  | cons o t ih =>
    intro st
    rw [List.foldl_cons]
    obtain ⟨t2, ht2⟩ := ih (exportMaterialsStep o options st)
    obtain ⟨t1, ht1⟩ := matStep_ext o options st
    exact ⟨t1 ++ t2, by rw [ht2, ht1]; simp⟩

theorem exportMaterials_ext (objs : List BObj) (options : Options) (host : Host) :
    ∃ tail, (exportMaterials objs options host).2.events = host.events ++ tail := by
  obtain ⟨t, ht⟩ := matFold_ext options objs ([], [], host)
  refine ⟨t, ?_⟩
  show (if ((objs.foldl (fun st obj => exportMaterialsStep obj options st)
        ([], [], host)).2.1).length = 0
    then ([getDefaultMaterial],
      (objs.foldl (fun st obj => exportMaterialsStep obj options st) ([], [], host)).2.2)
    else ((objs.foldl (fun st obj => exportMaterialsStep obj options st) ([], [], host)).2.1,
      (objs.foldl (fun st obj => exportMaterialsStep obj options st) ([], [], host)).2.2) :
      List MaterialRecord × Host).2.events = host.events ++ t
  split
  · exact ht
  · exact ht

theorem writeUSDA_events (objsR : List ObjRecord) (mats : List MaterialRecord)
    (options : Options) (host : Host) :
    ∃ u s, (writeUSDA objsR mats options host).events = host.events ++ [Event.fileWritten u s] :=
  ⟨_, _, rfl⟩

theorem writeUSDZ_events (mats : List MaterialRecord) (options : Options) (host : Host) :
    ∃ args, (writeUSDZ mats options host).events = host.events ++ [Event.processRun args] :=
  ⟨_, rfl⟩

theorem exportUSD_core_trace (objs : List BObj) (options0 : Options) (host0 : Host) :
    ∃ (M : List Event) (u s : String) (args : List String),
      ((writeUSDZ
          (exportMaterials objs (exportObjects objs options0 host0).2.1
            (exportObjects objs options0 host0).2.2).1
          (exportObjects objs options0 host0).2.1
          (writeUSDA (exportObjects objs options0 host0).1
            (exportMaterials objs (exportObjects objs options0 host0).2.1
              (exportObjects objs options0 host0).2.2).1
            (exportObjects objs options0 host0).2.1
            (exportMaterials objs (exportObjects objs options0 host0).2.1
              (exportObjects objs options0 host0).2.2).2)).log
        (Event.tempDirRemoved tempDirName)).events
      = host0.events ++ M
        ++ [Event.fileWritten u s, Event.processRun args,
            Event.tempDirRemoved tempDirName] := by
  obtain ⟨t, ht⟩ := exportMaterials_ext objs (exportObjects objs options0 host0).2.1
    (exportObjects objs options0 host0).2.2
  obtain ⟨u, s, hA⟩ := writeUSDA_events (exportObjects objs options0 host0).1
    (exportMaterials objs (exportObjects objs options0 host0).2.1
      (exportObjects objs options0 host0).2.2).1
    (exportObjects objs options0 host0).2.1
    (exportMaterials objs (exportObjects objs options0 host0).2.1
      (exportObjects objs options0 host0).2.2).2
  obtain ⟨args, hZ⟩ := writeUSDZ_events
    (exportMaterials objs (exportObjects objs options0 host0).2.1
      (exportObjects objs options0 host0).2.2).1
    (exportObjects objs options0 host0).2.1
    (writeUSDA (exportObjects objs options0 host0).1
      (exportMaterials objs (exportObjects objs options0 host0).2.1
        (exportObjects objs options0 host0).2.2).1
      (exportObjects objs options0 host0).2.1
      (exportMaterials objs (exportObjects objs options0 host0).2.1
        (exportObjects objs options0 host0).2.2).2)
  refine ⟨t, u, s, args, ?_⟩
  rw [Host.log_events, hZ, hA, ht, exportObjects_events]
  simp

theorem exportUSD_trace (objs : List BObj) (options : Options) (host : Host) :
    ∃ (M : List Event) (u s : String) (args : List String),
      (exportUSD objs options host).2.events
        = host.events ++ Event.tempDirCreated tempDirName :: (M
            ++ [Event.fileWritten u s, Event.processRun args,
                Event.tempDirRemoved tempDirName]) := by
  obtain ⟨M, u, s, args, hc⟩ := exportUSD_core_trace objs
    { (if ({ options with tempPath := options.basePath } : Options).fileType = "usdz"
          ∧ ¬({ options with tempPath := options.basePath } : Options).keepUSDA then
        { ({ options with tempPath := options.basePath } : Options) with
            tempPath := tempDirName ++ "/" }
      else { options with tempPath := options.basePath }) with
        startTimeCode := (host.log (Event.tempDirCreated tempDirName)).frame_start
        endTimeCode := (host.log (Event.tempDirCreated tempDirName)).frame_end
        timeCodesPerSecond := (host.log (Event.tempDirCreated tempDirName)).fps }
    (host.log (Event.tempDirCreated tempDirName))
  refine ⟨M, u, s, args, ?_⟩
  have h2 : (exportUSD objs options host).2.events
      = (host.log (Event.tempDirCreated tempDirName)).events ++ M
        ++ [Event.fileWritten u s, Event.processRun args,
            Event.tempDirRemoved tempDirName] := hc
  rw [h2, Host.log_events]
  simp

/-- C9: after a successful parse of the output file name, the entry
point always returns the `'FINISHED'` status; when the host reports an
empty selection or no active object it returns with the host untouched
(no document is written and no archiver is run), and otherwise it runs
the full pipeline before returning: the trace gains the temp-directory
creation, the written `.usda` document, the archiver invocation and the
temp-directory removal, in that order. -/
theorem export_usdz_exit (context : Context) (filepath : String)
    (em ku ba : Bool) (samples : ℕ) (scale : ℚ) (animated : Bool)
    (host : Host) (fn ft : String)
    (hsplit : splitExt (osPathSplit filepath).2 = some (fn, ft)) :
    (¬(context.selected_objects.length > 0 ∧ context.active_object.isSome) →
      export_usdz context filepath em ku ba samples scale animated host
        = some ("FINISHED", host))
    ∧ ∀ hg : context.selected_objects.length > 0 ∧ context.active_object.isSome,
      ∃ (host1 : Host) (M : List Event) (u s : String) (args : List String),
        export_usdz context filepath em ku ba samples scale animated host
          = some ("FINISHED", host1)
        ∧ host1.events = host.events ++ Event.tempDirCreated tempDirName :: (M
            ++ [Event.fileWritten u s, Event.processRun args,
                Event.tempDirRemoved tempDirName]) := by
  constructor
  · intro hng
    unfold export_usdz
    dsimp only
    rw [hsplit]
    dsimp only
    rw [dif_neg hng]
  · intro hg
    rcases hU : exportUSD
        (organizeObjects (context.active_object.get hg.2) context.selected_objects)
        { basePath := (osPathSplit filepath).1 ++ "/"
          fileName := fn
          fileType := "usdz"
          animated := animated
          exportMaterials := em
          keepUSDA := ku
          bakeAO := ba
          samples := samples
          scale := scale
          tempPath := ""
          startTimeCode := 0
          endTimeCode := 0
          timeCodesPerSecond := 0 } host with ⟨o1, host1⟩
    obtain ⟨M, u, s, args, hT⟩ := exportUSD_trace
      (organizeObjects (context.active_object.get hg.2) context.selected_objects)
      { basePath := (osPathSplit filepath).1 ++ "/"
        fileName := fn
        fileType := "usdz"
        animated := animated
        exportMaterials := em
        keepUSDA := ku
        bakeAO := ba
        samples := samples
        scale := scale
        tempPath := ""
        startTimeCode := 0
        endTimeCode := 0
        timeCodesPerSecond := 0 } host
    rw [hU] at hT
    dsimp only at hT
    refine ⟨host1, M, u, s, args, ?_, hT⟩
    unfold export_usdz
    dsimp only
    rw [hsplit]
    dsimp only
    rw [dif_pos hg]
    rw [hU]

/-- Witness for C9 at a concrete empty selection: the parse succeeds,
and the entry point returns `'FINISHED'` with the host untouched. -/
theorem export_usdz_exit_witness :
    splitExt (osPathSplit "/tmp/out.usdz").2 = some ("out", "usdz")
    ∧ ((¬((Context.mk [] none).selected_objects.length > 0
          ∧ (Context.mk [] none).active_object.isSome) →
        export_usdz (Context.mk [] none) "/tmp/out.usdz" true false false 8 1 false fixHost
          = some ("FINISHED", fixHost))
      ∧ ∀ _hg : (Context.mk [] none).selected_objects.length > 0
          ∧ (Context.mk [] none).active_object.isSome,
        ∃ (host1 : Host) (M : List Event) (u s : String) (args : List String),
          export_usdz (Context.mk [] none) "/tmp/out.usdz" true false false 8 1 false fixHost
            = some ("FINISHED", host1)
          ∧ host1.events = fixHost.events ++ Event.tempDirCreated tempDirName :: (M
              ++ [Event.fileWritten u s, Event.processRun args,
                  Event.tempDirRemoved tempDirName])) :=
  ⟨by decide, export_usdz_exit (Context.mk [] none) "/tmp/out.usdz" true false false 8 1
    false fixHost "out" "usdz" (by decide)⟩

end UsdzExport
